import Mathlib

/-!
Verification development for the DigiTradeX back-end OCR extraction core
(`ocr_extractors.py`): format classification (`identify_po_format`),
per-format field extraction (`extract_format1_data`, `extract_format2_data`,
`extract_format3_data`, `extract_generic_data`), numeric normalization
(`_clean_numeric_field`, `_extract_float`), result validation
(`validate_and_clean_result`) and the pipeline entry point (`extract_po_data`).

Modelling conventions:
* Python strings are modelled as `List Char` (with `String` wrappers at the API).
* Python `dict` results are modelled as structures; a key that the code may or
  may not insert is modelled as an `Option` field (`none` = key absent).
* Python `float` is modelled exactly, as an unnormalized fraction `PyNum`
  (numerator `Int`, denominator `Nat`, positive by construction).  All numeric
  strings in this code are short decimals, for which Python's binary floating
  point arithmetic and `str`/`round` formatting agree with exact rational
  arithmetic; IEEE rounding of non-decimal results and overflow to `inf` are
  outside the model and noted where relevant.
* Python regular expressions are modelled by a small regex AST (`Reg`) with a
  backtracking, priority-ordered matcher that follows `re` semantics (leftmost
  match, alternation in written order, greedy/lazy repetition); each pattern
  of the source is transcribed into this AST with its call site's flags
  (`IGNORECASE`, `MULTILINE`, `DOTALL`) baked in.  `\s`, `\d`, `\w` and case
  folding are modelled on ASCII, matching the ASCII texts this code handles.
* A Python exception crossing a function boundary is modelled with `Except`:
  `.error msg` is a raised exception.
-/

/-- Python `\s` / `str.strip()` whitespace, ASCII part. -/
def isPySpace (c : Char) : Bool :=
  c = ' ' || c = '\t' || c = '\n' || c = '\r' || c = '\x0b' || c = '\x0c'

/-- Python `\d`, ASCII part. -/
def isPyDigit (c : Char) : Bool :=
  '0' ≤ c && c ≤ '9'

/-- Python `\w`, ASCII part. -/
def isPyWord (c : Char) : Bool :=
  ('a' ≤ c && c ≤ 'z') || ('A' ≤ c && c ≤ 'Z') || isPyDigit c || c = '_'

/-- ASCII letter. -/
def isAsciiAlpha (c : Char) : Bool :=
  ('a' ≤ c && c ≤ 'z') || ('A' ≤ c && c ≤ 'Z')

/-- ASCII lower-casing, as used by `re.IGNORECASE` on the ASCII texts here. -/
def lowerAscii (c : Char) : Char :=
  if 'A' ≤ c && c ≤ 'Z' then Char.ofNat (c.toNat + 32) else c

/-- Case-insensitive character equality (ASCII). -/
def eqCI (a b : Char) : Bool :=
  lowerAscii a = lowerAscii b

/-- `str.strip()` from the left. -/
def stripL (l : List Char) : List Char := l.dropWhile isPySpace

/-- Python `str.strip()`: drop leading and trailing whitespace. -/
def stripPy (l : List Char) : List Char :=
  ((l.dropWhile isPySpace).reverse.dropWhile isPySpace).reverse

/-- `re.sub(r'\s+', ' ', s)`: each maximal whitespace run becomes one space.
`inWs` records whether the previous character was part of a run whose
replacement space has already been emitted. -/
def collapseWsAux : Bool → List Char → List Char
  | _, [] => []
  | inWs, c :: cs =>
    if isPySpace c then
      if inWs then collapseWsAux true cs else ' ' :: collapseWsAux true cs
    else c :: collapseWsAux false cs

/-- `re.sub(r'\s+', ' ', s)`. -/
def collapseWs (l : List Char) : List Char := collapseWsAux false l

/-- `re.sub('^[C]+|[C]+$', '', s)` for a character class `C` containing all
whitespace: it removes exactly the maximal leading run and the maximal
trailing run of class characters. -/
def trimClass (p : Char → Bool) (l : List Char) : List Char :=
  ((l.dropWhile p).reverse.dropWhile p).reverse

/-- Class `[:\s]` used by `extract_field_by_regex` to trim captured values. -/
def isColonWs (c : Char) : Bool := c = ':' || isPySpace c

/-- Class `[:;,.\s]` used by `validate_and_clean_result` on `po_number`. -/
def isPoPunct (c : Char) : Bool :=
  c = ':' || c = ';' || c = ',' || c = '.' || isPySpace c

/-- Python `str.replace(old, new)` for single characters. -/
def replaceChar (old new : Char) (l : List Char) : List Char :=
  l.map fun c => if c = old then new else c

/-- Python `str.replace(old, '')` for a single character. -/
def removeChar (old : Char) (l : List Char) : List Char :=
  l.filter fun c => c ≠ old

/-- Python `str.rfind(ch)`: index of the last occurrence, `-1` if absent. -/
def rfindPos (l : List Char) (ch : Char) : Int :=
  match (l.reverse.findIdx? (fun c => c = ch)) with
  | some k => (l.length : Int) - 1 - (k : Int)
  | none => -1

/-! ### Exact model of Python floats: unnormalized fractions -/

/-- Exact model of a Python `float` produced by this code: an unnormalized
fraction.  Every constructor used below keeps `den` positive. -/
structure PyNum where
  num : Int
  den : Nat
  deriving DecidableEq, Repr

/-- The rational value of a `PyNum` (for readable theorem statements). -/
def PyNum.toQ (x : PyNum) : ℚ := (x.num : ℚ) / (x.den : ℚ)

/-- The float `0`. -/
def PyNum.zero : PyNum := ⟨0, 1⟩

/-- `x <= 0` on Python floats (denominator positive). -/
def PyNum.le0 (x : PyNum) : Bool := x.num ≤ 0

/-- `x > 0` on Python floats (denominator positive). -/
def PyNum.pos (x : PyNum) : Bool := 0 < x.num

/-- `x > n` for a natural bound `n` (denominator positive). -/
def PyNum.gtNat (x : PyNum) (n : Nat) : Bool := (n : Int) * (x.den : Int) < x.num

/-- Float multiplication. -/
def PyNum.mul (x y : PyNum) : PyNum := ⟨x.num * y.num, x.den * y.den⟩

/-- Float division; only ever called by the code with a strictly positive
divisor (`qty > 0`, `price > 0` are checked first), so the sign and zero cases
only keep the definition total. -/
def PyNum.div (x y : PyNum) : PyNum :=
  if 0 < y.num then ⟨x.num * (y.den : Int), x.den * y.num.toNat⟩
  else if y.num < 0 then ⟨-(x.num * (y.den : Int)), x.den * (-y.num).toNat⟩
  else ⟨0, 1⟩

/-- Round a fraction to the nearest integer, ties to even (Python `round`). -/
def PyNum.roundHalfEven (x : PyNum) : Int :=
  let q := x.num.fdiv (x.den : Int)
  let r := x.num.fmod (x.den : Int)
  if 2 * r < (x.den : Int) then q
  else if (x.den : Int) < 2 * r then q + 1
  else if q % 2 = 0 then q else q + 1

/-- Python `round(x, 2)`. -/
def PyNum.round2 (x : PyNum) : PyNum :=
  ⟨PyNum.roundHalfEven ⟨x.num * 100, x.den⟩, 100⟩

/-- Decimal digits of a natural number, most significant first (fuelled to
stay structural; the fuel `n + 1` always suffices). -/
def natDigitsAux : Nat → Nat → List Char
  | 0, _ => []
  | fuel + 1, n =>
    if n < 10 then [Char.ofNat (48 + n)]
    else natDigitsAux fuel (n / 10) ++ [Char.ofNat (48 + n % 10)]

/-- Decimal representation of a natural number. -/
def natDigits (n : Nat) : List Char := natDigitsAux (n + 1) n

/-- Left-pad a digit string with `'0'` to length `k`. -/
def padZeros (k : Nat) (l : List Char) : List Char :=
  List.replicate (k - l.length) '0' ++ l

/-- Smallest `k` (scanning upward from `j`, `fuel` steps) with
`d ∣ a * 10 ^ k`. -/
def tenExpAux (a d : Nat) : Nat → Nat → Option Nat
  | 0, _ => none
  | fuel + 1, j => if a * 10 ^ j % d = 0 then some j else tenExpAux a d fuel (j + 1)

/-- Smallest `k` with `d ∣ a * 10 ^ k`, if any (when one exists it is at most
`d`, so fuel `d + 1` is always enough). -/
def tenExp (a d : Nat) : Option Nat := tenExpAux a d (d + 1) 0

/-- `str(x)` for a nonnegative Python float that is an exact decimal: the
shortest decimal form, always with at least one fractional digit (Python
prints `25.0`, `2.5`, `0.33`).  Every float this code converts with `str` is
`float` of a decimal literal or a `round(_, 2)` result, hence an exact
decimal; the final fallback (non-decimal denominator) truncates to 16
fractional digits, approximating Python's shortest-roundtrip repr, and is
unreachable in the theorems below. -/
def PyNum.toStr (x : PyNum) : String :=
  let sign := if x.num < 0 then "-" else ""
  let a := x.num.natAbs
  match tenExp a x.den with
  | some k =>
    let m := a * 10 ^ k / x.den
    let ip := m / 10 ^ k
    let fp := m % 10 ^ k
    if k = 0 then sign ++ ⟨natDigits m⟩ ++ ".0"
    else sign ++ ⟨natDigits ip⟩ ++ "." ++ ⟨padZeros k (natDigits fp)⟩
  | none =>
    let m := a * 10 ^ 16 / x.den
    sign ++ ⟨natDigits (m / 10 ^ 16)⟩ ++ "." ++ ⟨padZeros 16 (natDigits (m % 10 ^ 16))⟩

/-! ### `_clean_numeric_field` and `_extract_float` -/

/-- `re.sub(r'[^\d.,]', '', value)`: keep only digits, periods and commas. -/
def filterNumeric (l : List Char) : List Char :=
  l.filter fun c => isPyDigit c || c = '.' || c = ','

/-- `_clean_numeric_field` on character lists: strip non-numeric characters,
then disambiguate comma/period by the positions of their last occurrences
(`str.rfind`), exactly as in the source (note the `> 0` comparisons: a
separator at index 0 fails them). -/
def cleanNumericL (l : List Char) : List Char :=
  if l = [] then []
  else
    let cleaned := filterNumeric l
    let commaPos := rfindPos cleaned ','
    let periodPos := rfindPos cleaned '.'
    if 0 < commaPos ∧ 0 < periodPos then
      if periodPos < commaPos then replaceChar ',' '.' (removeChar '.' cleaned)
      else removeChar ',' cleaned
    else if 0 < commaPos then
      if (cleaned.length : Int) - commaPos ≤ 3 then replaceChar ',' '.' cleaned
      else removeChar ',' cleaned
    else cleaned

/-- `_clean_numeric_field(value)`. -/
def cleanNumericField (value : String) : String := ⟨cleanNumericL value.data⟩

/-- Digit-list value. -/
def digitsVal (l : List Char) : Nat :=
  l.foldl (fun acc c => acc * 10 + (c.toNat - 48)) 0

/-- Python `float(s)` for a string of digits, periods and commas (the only
strings `_extract_float` parses): defined iff there is no comma, at most one
period, and at least one digit. -/
def pyFloatParse (l : List Char) : Option PyNum :=
  if l.any (fun c => c = ',') then none
  else
    match l.splitOn '.' with
    | [ds] => if ds = [] then none else some ⟨(digitsVal ds : Int), 1⟩
    | [a, b] =>
      if a = [] ∧ b = [] then none
      else some ⟨(digitsVal a * 10 ^ b.length + digitsVal b : Nat), 10 ^ b.length⟩
    | _ => none

/-- `_extract_float(value)`: clean, then `float(...)`, any failure giving 0. -/
def extractFloat (value : String) : PyNum :=
  if value = "" then PyNum.zero
  else
    let cleaned := cleanNumericL value.data
    if cleaned = [] then PyNum.zero
    else
      match pyFloatParse cleaned with
      | some x => x
      | none => PyNum.zero

/-! ### A small regex engine

The engine covers exactly the constructs used by `ocr_extractors.py`:
character classes, literals, sequencing, alternation, greedy and lazy
repetition of a character class (every `*`, `+`, `*?` in the source repeats a
single-character class), capturing groups, and the two flavours of `$`.
`mrun` enumerates candidate matches of a pattern against a prefix of the
input in Python's backtracking priority order (alternatives in written order,
greedy longest-first, lazy shortest-first), so taking the head of the list at
the first position with any match reproduces `re.search`. -/

/-- Regex AST.  `star true p` is lazy (`*?`), `star false p` greedy (`*`).
`eol` is `$` under `re.MULTILINE` (end of string or before any newline),
`eos` is `$` without it (end of string or before a final newline). -/
inductive Reg where
  | eps
  | cls (p : Char → Bool)
  | seq (a b : Reg)
  | alt (a b : Reg)
  | star (lazy : Bool) (p : Char → Bool)
  | grp (n : Nat) (r : Reg)
  | eol
  | eos

/-- Captured groups: group index paired with the captured characters; the
most recent capture of a group is listed first. -/
abbrev Caps := List (Nat × List Char)

/-- All ways `r` can match a prefix of `s`, as (remaining suffix, captures),
in Python's backtracking priority order. -/
def Reg.mrun : Reg → List Char → Caps → List (List Char × Caps)
  | .eps, s, caps => [(s, caps)]
  | .cls p, s, caps =>
    match s with
    | [] => []
    | c :: cs => if p c then [(cs, caps)] else []
  | .seq a b, s, caps =>
    (a.mrun s caps).flatMap fun sc => b.mrun sc.1 sc.2
  | .alt a b, s, caps => a.mrun s caps ++ b.mrun s caps
  | .star lazy p, s, caps =>
    let run := (s.takeWhile p).length
    let ks := if lazy then List.range (run + 1) else (List.range (run + 1)).map (run - ·)
    ks.map fun k => (s.drop k, caps)
  | .grp n r, s, caps =>
    (r.mrun s caps).map fun sc => (sc.1, (n, s.take (s.length - sc.1.length)) :: sc.2)
  | .eol, s, caps =>
    match s with
    | [] => [([], caps)]
    | c :: cs => if c = '\n' then [(c :: cs, caps)] else []
  | .eos, s, caps =>
    match s with
    | [] => [([], caps)]
    | [c] => if c = '\n' then [([c], caps)] else []
    | _ => []

/-- Number of the highest capturing group in a pattern. -/
def Reg.maxGrp : Reg → Nat
  | .seq a b => max a.maxGrp b.maxGrp
  | .alt a b => max a.maxGrp b.maxGrp
  | .grp n r => max n r.maxGrp
  | _ => 0

/-- `re.search`: captures of the highest-priority match at the leftmost
matching position, or `none`. -/
def searchCaps (r : Reg) : List Char → Option Caps
  | [] => ((r.mrun [] []).head?).map fun sc => sc.2
  | c :: tl =>
    match (r.mrun (c :: tl) []).head? with
    | some sc => some sc.2
    | none => searchCaps r tl

/-- Whether `re.search` finds a match. -/
def searchBool (r : Reg) (s : List Char) : Bool := (searchCaps r s).isSome

/-- `match.group(n)`: the captured characters, `none` when the group did not
participate in the match. -/
def capStr (caps : Caps) (n : Nat) : Option (List Char) :=
  (caps.find? fun kc => kc.1 = n).map fun kc => kc.2

/-- Group value with Python `findall`'s empty-string default. -/
def capD (caps : Caps) (n : Nat) : List Char := (capStr caps n).getD []

/-- `re.findall`: captures of all non-overlapping matches, scanning left to
right and resuming after each match (one character further for an empty
match, as Python does).  Each scan step consumes at least one character, so
fuel `s.length + 1` is always enough. -/
def findallAux (r : Reg) : Nat → List Char → List Caps
  | 0, _ => []
  | fuel + 1, s =>
    match (r.mrun s []).head? with
    | some sc =>
      if sc.1.length = s.length then
        match s with
        | [] => [sc.2]
        | _ :: tl => sc.2 :: findallAux r fuel tl
      else sc.2 :: findallAux r fuel sc.1
    | none =>
      match s with
      | [] => []
      | _ :: tl => findallAux r fuel tl

/-- `re.findall`. -/
def findall (r : Reg) (s : List Char) : List Caps := findallAux r (s.length + 1) s

/-! Pattern-building helpers used by the transcriptions. -/

/-- Sequence a list of pattern pieces. -/
def rcat (l : List Reg) : Reg := l.foldr Reg.seq Reg.eps

/-- Alternation over a non-empty list, in written order. -/
def ralt (l : List Reg) : Reg :=
  match l with
  | [] => Reg.eps
  | [r] => r
  | r :: rest => Reg.alt r (ralt rest)

/-- Case-sensitive literal. -/
def litS (s : String) : Reg := rcat (s.data.map fun c => Reg.cls (· = c))

/-- Case-insensitive literal (`re.IGNORECASE`). -/
def litI (s : String) : Reg := rcat (s.data.map fun c => Reg.cls (eqCI c))

/-- Greedy `?` on a sub-pattern (match first, as Python does). -/
def ropt (r : Reg) : Reg := Reg.alt r Reg.eps

/-- Greedy `C*` on a class. -/
def rstar (p : Char → Bool) : Reg := Reg.star false p

/-- Greedy `C+` on a class. -/
def rplus (p : Char → Bool) : Reg := Reg.seq (Reg.cls p) (Reg.star false p)

/-- Lazy `.*?` with `.` excluding newlines (no `re.DOTALL`). -/
def rdotL : Reg := Reg.star true (· ≠ '\n')

/-- `\s*`. -/
def rws : Reg := rstar isPySpace

/-- `(?:\n|$)` under `re.MULTILINE`. -/
def rnlOrEnd : Reg := Reg.alt (Reg.cls (· = '\n')) Reg.eol

/-! ### Result records

All four extractors build the dictionary
`{"customer_name": "", "po_number": "", "currency": "", "products": [],
"payment_terms": "", "destination": ""}` and only ever update those six keys,
so the record is modelled as a structure.  No function in the module ever
creates a `total_amount` key, and `extract_po_data` adds an `amount` key to
each product; those two are modelled as `Option` fields (`none` = absent). -/

/-- One product line, as built by the extractors. -/
structure Product where
  product_name : String
  quantity : String
  unit_price : String
  subtotal : String
  amount : Option String
  deriving DecidableEq, Repr

/-- A product dictionary as the extractors create it (no `amount` key). -/
def mkProd (name qty price sub : String) : Product :=
  ⟨name, qty, price, sub, none⟩

/-- The extraction-result dictionary. -/
structure POResult where
  customer_name : String
  po_number : String
  currency : String
  products : List Product
  payment_terms : String
  destination : String
  total_amount : Option String
  deriving DecidableEq, Repr

/-- The initial `result` dictionary of every extractor. -/
def emptyResult : POResult := ⟨"", "", "", [], "", "", none⟩

/-- Decidable equality for `Except`, for evaluating concrete pipeline runs. -/
instance exceptDecEq {ε α : Type} [DecidableEq ε] [DecidableEq α] :
    DecidableEq (Except ε α) := fun x y =>
  match x, y with
  | .ok a, .ok b =>
    if h : a = b then isTrue (by rw [h]) else isFalse (by intro hc; cases hc; exact h rfl)
  | .error a, .error b =>
    if h : a = b then isTrue (by rw [h]) else isFalse (by intro hc; cases hc; exact h rfl)
  | .ok _, .error _ => isFalse (by intro hc; cases hc)
  | .error _, .ok _ => isFalse (by intro hc; cases hc)

/-- `extract_field_by_regex(text, patterns, default_value)`: try each pattern
with `re.search(..., re.IGNORECASE | re.MULTILINE)`; on a match, Python
evaluates `match.group(1)` — an `IndexError` if the pattern has no group 1,
and `None` (whose `.strip()` is an `AttributeError`) if group 1 did not
participate; a captured value that strips to non-empty is trimmed of leading
and trailing `[:\s]` and returned, otherwise the next pattern is tried. -/
def extractFieldByRegex (patterns : List Reg) (text : List Char) (dflt : String) :
    Except String String :=
  match patterns with
  | [] => .ok dflt
  | pat :: rest =>
    match searchCaps pat text with
    | some caps =>
      if pat.maxGrp < 1 then .error "IndexError: no such group"
      else
        match capStr caps 1 with
        | none => .error "AttributeError: NoneType object has no attribute strip"
        | some g =>
          if stripPy g ≠ [] then .ok ⟨trimClass isColonWs (stripPy g)⟩
          else extractFieldByRegex rest text dflt
    | none => extractFieldByRegex rest text dflt

/-! ### `identify_po_format`: feature tables and scoring

Each feature is transcribed from `format_features` with `re.IGNORECASE`
baked in (the classifier passes only that flag, so `$` in the `format2`
header feature is `Reg.eos`). -/

/-- `[\d,.]`-style class: digits only. -/
def dD : Reg := Reg.cls isPyDigit

/-- `format1` classification features (pattern, weight). -/
def format1Features : List (Reg × Nat) :=
  [ (rcat [litI "(Buyer", ralt [litS "'", litS "'"], litI "s Info)"], 10),
    (litI "ABC Company", 5),
    (rcat [litI "Purchase Order", ropt (litS ":"), rws, rplus isPyDigit], 5),
    (litI "Ship to:", 3),
    (rcat [litI "Unit Price", ropt (litS ":"), rws, litS "$"], 3),
    (litI "EXT Price:", 3),
    (litI "Inco Terms:", 2),
    (litI "Del Date:", 2) ]

/-- `format2` classification features (pattern, weight). -/
def format2Features : List (Reg × Nat) :=
  [ (rcat [litI "Purchase Order", rws, Reg.eos], 10),
    (litI "Supplier:", 5),
    (rcat [litI "Purchase Order no", ropt (litS ":"), rws, rplus isPyDigit], 5),
    (litI "Payment Terms:", 3),
    (litI "Incoterms:", 3),
    (litI "Discharge Port:", 3),
    (litI "Buyer:", 3),
    (litI "Commodity", 2),
    (litI "Grand Total", 2) ]

/-- `format3` classification features (pattern, weight). -/
def format3Features : List (Reg × Nat) :=
  [ (rcat [ralt [litI "///", litI "///"], litI "ORDER CONFIMATION",
           ralt [litI "///", litI "///"]], 10),
    (rcat [litI "Contract Party", rws, litS ":"], 5),
    (litI "Order No.", 5),
    (rcat [litI "Grade ", Reg.cls isAsciiAlpha], 3),
    (litI "Qt'y (mt)", 3),
    (litI "PORT OF DISCHARGE", 3),
    (litI "Payment term", 2),
    (litI "TIME OF SHIPMENT", 2),
    (litI "PORT OF LOADING", 2) ]

/-- Sum of the weights of the features whose pattern matches the text. -/
def featureScore (features : List (Reg × Nat)) (text : List Char) : Nat :=
  features.foldl (fun acc fw => if searchBool fw.1 text then acc + fw.2 else acc) 0

/-- `identify_po_format(text)`: score the three profiles; return `"generic"`
iff every score is 0, else the first profile (in insertion order `format1`,
`format2`, `format3`) with the maximal score — exactly Python's
`max(format_scores, key=format_scores.get)`. -/
def identify_po_format (text : String) : String :=
  let s1 := featureScore format1Features text.data
  let s2 := featureScore format2Features text.data
  let s3 := featureScore format3Features text.data
  if s1 = 0 ∧ s2 = 0 ∧ s3 = 0 then "generic"
  else if s2 > s1 then (if s3 > s2 then "format3" else "format2")
  else if s3 > s1 then "format3"
  else "format1"

/-! ### Character classes shared by the extraction patterns -/

/-- `[\d,.]`. -/
def isNumSep (c : Char) : Bool := isPyDigit c || c = ',' || c = '.'

/-- `[\d,]`. -/
def isDigComma (c : Char) : Bool := isPyDigit c || c = ','

/-- `[\d.]`. -/
def isDigPeriod (c : Char) : Bool := isPyDigit c || c = '.'

/-- `[A-Za-z0-9]`. -/
def isAlnumC (c : Char) : Bool := isAsciiAlpha c || isPyDigit c

/-- `[a-zA-Z0-9-]`. -/
def isAlnumDash (c : Char) : Bool := isAlnumC c || c = '-'

/-- `[A-Za-z0-9\s]`. -/
def isAlnumWsC (c : Char) : Bool := isAlnumC c || isPySpace c

/-- `[A-Z]` (case-sensitive call sites). -/
def isUpperC (c : Char) : Bool := 'A' ≤ c && c ≤ 'Z'

/-- `[^\\n]` under `re.IGNORECASE`: anything but a backslash, `n` and `N`. -/
def isNotBsN (c : Char) : Bool := c ≠ '\\' && lowerAscii c ≠ 'n'

/-- `(?:'|')`: the source writes the apostrophe alternation twice. -/
def rApos : Reg := ralt [litS "'", litS "'"]

/-- `(USD|EUR|JPY|CNY)` — searched case-sensitively (no flags). -/
def currencyPat : Reg := Reg.grp 1 (ralt [litS "USD", litS "EUR", litS "JPY", litS "CNY"])

/-- The `re.search(r"(USD|EUR|JPY|CNY)", text)` step of the extractors. -/
def searchCurrency (text : List Char) : Option String :=
  (searchCaps currencyPat text).map fun c => ⟨capD c 1⟩

/-! ### `extract_format1_data` -/

/-- Customer-name patterns of `extract_format1_data`. -/
def f1CustomerPats : List Reg :=
  [ rcat [litI "ABC Company", rws, Reg.grp 1 rdotL, rnlOrEnd],
    rcat [litI "(Buyer", rApos, litI "s Info)", rdotL,
          Reg.grp 1 (rcat [rplus isAlnumWsC, litI "Company"])],
    rcat [ralt [rcat [litI "(Buyer", rApos, litI "s Info)"],
                rcat [litI "Buyer", ropt (Reg.cls (· = '\'')), litI "s",
                      rplus isPySpace, litI "info"]],
          ropt (rcat [rdotL, Reg.cls (· = '\n')]),
          Reg.grp 1 rdotL, rnlOrEnd] ]

/-- PO-number patterns of `extract_format1_data`. -/
def f1PoPats : List Reg :=
  [ rcat [litI "Purchase Order", ropt (ralt [litS ":", litI "Order", litI "Number"]),
          ropt (litS ":"), rws, Reg.grp 1 (rplus isPyDigit)],
    rcat [ralt [litI "PO", litI "Order"], ropt (rcat [rplus isPySpace, litI "No"]),
          ropt (litS "."), ropt (litS ":"), rws, Reg.grp 1 (rplus isPyDigit)],
    rcat [litI "Purchase Order", ropt (litS ":"), rws, Reg.grp 1 (rplus isAlnumDash)] ]

/-- Payment-terms patterns of `extract_format1_data`. -/
def f1PaymentPats : List Reg :=
  [ rcat [litI "Terms:", rws, Reg.grp 1 rdotL, rnlOrEnd],
    rcat [litI "Payment term", ropt (litI "s"), ropt (litS ":"), rws,
          Reg.grp 1 rdotL, rnlOrEnd],
    rcat [litI "Net Due within", rws, Reg.grp 1 rdotL, rnlOrEnd] ]

/-- Destination patterns of `extract_format1_data`. -/
def f1DestPats : List Reg :=
  [ rcat [litI "Ship to:", rws, Reg.grp 1 rdotL, rnlOrEnd],
    rcat [litI "Destination:", rws, Reg.grp 1 rdotL, rnlOrEnd],
    rcat [litI "Delivery Address:", rws, Reg.grp 1 rdotL, rnlOrEnd] ]

/-- Product-name patterns of `extract_format1_data`. -/
def f1NamePats : List Reg :=
  [ rcat [litI "Item:", rws, Reg.grp 1 rdotL, rnlOrEnd],
    rcat [litI "Product", ropt (litS ":"), rws, Reg.grp 1 rdotL,
          ralt [Reg.cls (· = '\n'), litI "Quantity"]] ]

/-- `(?:KG|kg|MT|mt)` under `re.IGNORECASE`. -/
def rUnits : Reg := ralt [litI "KG", litI "kg", litI "MT", litI "mt"]

/-- Quantity patterns of `extract_format1_data`. -/
def f1QtyPats : List Reg :=
  [ rcat [litI "Quantity:", rws, Reg.grp 1 (rplus isNumSep), rws, rUnits],
    rcat [litI "Qty", ropt (litS ":"), rws, Reg.grp 1 (rplus isNumSep), rws, rUnits],
    rcat [litI "QuanƟty", ropt (litS ":"), rws, Reg.grp 1 (rplus isNumSep), rws, rUnits] ]

/-- Unit-price patterns of `extract_format1_data`. -/
def f1PricePats : List Reg :=
  [ rcat [litI "Unit Price:", rws, ropt (litS "$"), rws, Reg.grp 1 (rplus isNumSep)],
    rcat [litI "Unit Price:", rdotL, litI "per", rws, rdotL, ropt (litS "$"), rws,
          Reg.grp 1 (rplus isNumSep)],
    rcat [litI "Unit Price: $", rws, Reg.grp 1 (rplus isNumSep), rplus isPySpace, litI "per"] ]

/-- Subtotal patterns of `extract_format1_data`. -/
def f1SubPats : List Reg :=
  [ rcat [litI "EXT Price:", rws, ropt (litI "USD"), rws, Reg.grp 1 (rplus isNumSep)],
    rcat [litI "Amount:", rws, ropt (litI "USD"), rws, Reg.grp 1 (rplus isNumSep)],
    rcat [litI "EXT Price: ", Reg.grp 1 (rplus isNumSep)] ]

/-- Total-amount patterns of `extract_format1_data`. -/
def f1TotalPats : List Reg :=
  [ rcat [litI "TOTAL", rws, ropt (litI "USD"), rws, Reg.grp 1 (rplus isNumSep)],
    rcat [litI "Total", ropt (litS ":"), rws, ropt (litI "USD"), rws,
          Reg.grp 1 (rplus isNumSep)] ]

/-- `extract_format1_data(text)`. -/
def extract_format1_data (text : String) : Except String POResult := do
  let t := text.data
  let customer ← extractFieldByRegex f1CustomerPats t ""
  let po ← extractFieldByRegex f1PoPats t ""
  let currency := (searchCurrency t).getD ""
  let payment ← extractFieldByRegex f1PaymentPats t ""
  let dest ← extractFieldByRegex f1DestPats t ""
  let pname ← extractFieldByRegex f1NamePats t ""
  let qty ← extractFieldByRegex f1QtyPats t ""
  let price ← extractFieldByRegex f1PricePats t ""
  let sub ← extractFieldByRegex f1SubPats t ""
  let products :=
    if pname ≠ "" ∨ qty ≠ "" then
      [mkProd pname (cleanNumericField qty) (cleanNumericField price) (cleanNumericField sub)]
    else []
  let products ←
    if sub = "" ∧ products.length > 0 then do
      let total ← extractFieldByRegex f1TotalPats t ""
      if total ≠ "" ∧ products.length = 1 then
        pure (products.map fun p => { p with subtotal := cleanNumericField total })
      else pure products
    else pure products
  pure { emptyResult with
           customer_name := customer
           po_number := po
           currency := currency
           payment_terms := payment
           destination := dest
           products := products }

/-! ### `extract_format2_data` -/

/-- Customer-name patterns of `extract_format2_data`. -/
def f2CustomerPats : List Reg :=
  [ rcat [litI "Buyer:", rws, Reg.grp 1 rdotL, rnlOrEnd],
    rcat [ralt [litI "Buyer", litI "Customer", litI "Client"], litS ":", rws,
          Reg.grp 1 rdotL, rnlOrEnd],
    rcat [litI "Buyer", ropt (litS ":"), rws, Reg.grp 1 (rcat [rdotL, litI "Ltd."])],
    rcat [litI "Buyer", ropt (litS ":"), rplus isPySpace, Reg.grp 1 (rplus isNotBsN)] ]

/-- PO-number patterns of `extract_format2_data`. -/
def f2PoPats : List Reg :=
  [ rcat [litI "Purchase Order no", ropt (litS ":"), rws, Reg.grp 1 (rplus isPyDigit)],
    rcat [litI "Purchase Order no", ropt (litS ":"), rws, Reg.grp 1 (rplus isAlnumDash)],
    rcat [litI "PO ", ralt [litI "number", rcat [litI "no", ropt (litS ".")]], litS ":",
          rws, Reg.grp 1 (rplus isPyDigit)] ]

/-- Payment-terms patterns of `extract_format2_data`. -/
def f2PaymentPats : List Reg :=
  [ rcat [litI "Payment Terms:", rws, Reg.grp 1 rdotL, rnlOrEnd],
    rcat [litI "Payment", ropt (litS ":"), rws, Reg.grp 1 rdotL, rnlOrEnd] ]

/-- Destination patterns of `extract_format2_data`. -/
def f2DestPats : List Reg :=
  [ rcat [litI "Discharge Port:", rws, Reg.grp 1 rdotL, rnlOrEnd],
    rcat [ralt [litI "Ship to", litI "Destination", litI "Delivery Address"], litS ":",
          rws, Reg.grp 1 rdotL, rnlOrEnd] ]

/-- Table-row pattern of `extract_format2_data`, method 1 (`re.IGNORECASE`):
`(?:[A-Za-z0-9]+)\s+(Product [A-Za-z])\s+([\d,]+)\s*kg\s+US\$?([\d.]+)\s+US\$?([\d,.]+)`. -/
def f2RowPat : Reg :=
  rcat [rplus isAlnumC, rplus isPySpace,
        Reg.grp 1 (rcat [litI "Product ", Reg.cls isAsciiAlpha]), rplus isPySpace,
        Reg.grp 2 (rplus isDigComma), rws, litI "kg", rplus isPySpace,
        litI "US", ropt (litS "$"), Reg.grp 3 (rplus isDigPeriod), rplus isPySpace,
        litI "US", ropt (litS "$"), Reg.grp 4 (rplus isNumSep)]

/-- Table-row pattern of `extract_format2_data`, method 2 (`re.IGNORECASE`):
`(\d[a-z])\s+(Product [A-Za-z])\s+([\d,]+)\s*kg\s+US\$?([\d.]+)\s+US\$?([\d,.]+)`. -/
def f2SectionPat : Reg :=
  rcat [Reg.grp 1 (rcat [Reg.cls isPyDigit, Reg.cls isAsciiAlpha]), rplus isPySpace,
        Reg.grp 2 (rcat [litI "Product ", Reg.cls isAsciiAlpha]), rplus isPySpace,
        Reg.grp 3 (rplus isDigComma), rws, litI "kg", rplus isPySpace,
        litI "US", ropt (litS "$"), Reg.grp 4 (rplus isDigPeriod), rplus isPySpace,
        litI "US", ropt (litS "$"), Reg.grp 5 (rplus isNumSep)]

/-- Method-3 pattern `Product ([A-Z])` (no flags). -/
def f2NamesPat : Reg := rcat [litS "Product ", Reg.grp 1 (Reg.cls isUpperC)]

/-- Method-3 pattern `([\d,]+)\s*kg` (no flags). -/
def f2QtsPat : Reg := rcat [Reg.grp 1 (rplus isDigComma), rws, litS "kg"]

/-- Method-3 pattern `US\$\s*([\d.]+)` (no flags). -/
def f2PricesPat : Reg := rcat [litS "US$", rws, Reg.grp 1 (rplus isDigPeriod)]

/-- Method-3 pattern `US\$\s*([\d,.]+)(?:\.00)?(?:\s|$)` (no flags, so `$` is
end-of-string). -/
def f2SubsPat : Reg :=
  rcat [litS "US$", rws, Reg.grp 1 (rplus isNumSep), ropt (litS ".00"),
        ralt [Reg.cls isPySpace, Reg.eos]]

/-- Fallback product-name patterns of `extract_format2_data`. -/
def f2FbNamePats : List Reg :=
  [ rcat [litI "Commodity", rplus isPySpace,
          Reg.grp 1 (rcat [litI "Product ", Reg.cls isAsciiAlpha])],
    rcat [litI "Item", rplus isPySpace,
          Reg.grp 1 (rcat [litI "Product ", Reg.cls isAsciiAlpha])] ]

/-- Fallback quantity patterns of `extract_format2_data`:
`(?:[\d,]+)\s*kg` and `Quantity\s+(?:[\d,]+)` — note that NEITHER has a
capturing group, so a successful search makes `match.group(1)` raise
`IndexError`. -/
def f2FbQtyPats : List Reg :=
  [ rcat [rplus isDigComma, rws, litI "kg"],
    rcat [litI "Quantity", rplus isPySpace, rplus isDigComma] ]

/-- Fallback unit-price patterns of `extract_format2_data`. -/
def f2FbPricePats : List Reg :=
  [ rcat [litI "US$", rws, Reg.grp 1 (rplus isDigPeriod)],
    rcat [litI "Unit price", rplus isPySpace, litI "US$", rws,
          Reg.grp 1 (rplus isDigPeriod)] ]

/-- Fallback subtotal patterns of `extract_format2_data`. -/
def f2FbSubPats : List Reg :=
  [ rcat [litI "Total Amount", rplus isPySpace, litI "US$", rws,
          Reg.grp 1 (rplus isNumSep)],
    rcat [litI "US$", rws, Reg.grp 1 (rplus isNumSep), ropt (litS ".00")] ]

/-- `extract_format2_data(text)`.  The `try`-block around the three table
methods contains no fallible operation in the model (`findall` cannot raise),
so its `except` branch is dead; the fallback's quantity extraction, however,
uses the group-less `f2FbQtyPats` and raises `IndexError` whenever one of
them matches the text. -/
def extract_format2_data (text : String) : Except String POResult := do
  let t := text.data
  let customer ← extractFieldByRegex f2CustomerPats t ""
  let po ← extractFieldByRegex f2PoPats t ""
  let currency := (searchCurrency t).getD ""
  let payment ← extractFieldByRegex f2PaymentPats t ""
  let dest ← extractFieldByRegex f2DestPats t ""
  let rows := findall f2RowPat t
  let products :=
    if rows ≠ [] then
      rows.map fun c =>
        mkProd ⟨stripPy (capD c 1)⟩ (cleanNumericField ⟨capD c 2⟩)
          (cleanNumericField ⟨capD c 3⟩) (cleanNumericField ⟨capD c 4⟩)
    else
      let sections := findall f2SectionPat t
      if sections ≠ [] then
        sections.map fun c =>
          mkProd ⟨stripPy (capD c 2)⟩ (cleanNumericField ⟨capD c 3⟩)
            (cleanNumericField ⟨capD c 4⟩) (cleanNumericField ⟨capD c 5⟩)
      else
        let names := (findall f2NamesPat t).map fun c => capD c 1
        let qts := (findall f2QtsPat t).map fun c => capD c 1
        let prices := (findall f2PricesPat t).map fun c => capD c 1
        let subs0 := (findall f2SubsPat t).map fun c => capD c 1
        let subs := if subs0.length > names.length then subs0.take names.length else subs0
        names.enum.filterMap fun ic =>
          if ic.1 < qts.length ∧ ic.1 < prices.length ∧ ic.1 < subs.length then
            some (mkProd ("Product " ++ (⟨ic.2⟩ : String))
              (cleanNumericField ⟨(qts.get? ic.1).getD []⟩)
              (cleanNumericField ⟨(prices.get? ic.1).getD []⟩)
              (cleanNumericField ⟨(subs.get? ic.1).getD []⟩))
          else none
  if products = [] then do
    let pname ← extractFieldByRegex f2FbNamePats t ""
    let qty ← extractFieldByRegex f2FbQtyPats t ""
    let price ← extractFieldByRegex f2FbPricePats t ""
    let sub ← extractFieldByRegex f2FbSubPats t ""
    let products2 :=
      if pname ≠ "" ∨ qty ≠ "" then
        [mkProd (if pname ≠ "" then pname else "Unknown Product")
          (cleanNumericField qty) (cleanNumericField price) (cleanNumericField sub)]
      else []
    pure { emptyResult with
             customer_name := customer
             po_number := po
             currency := currency
             payment_terms := payment
             destination := dest
             products := products2 }
  else
    pure { emptyResult with
             customer_name := customer
             po_number := po
             currency := currency
             payment_terms := payment
             destination := dest
             products := products }

/-! ### `extract_format3_data` -/

/-- Customer-name patterns of `extract_format3_data`. -/
def f3CustomerPats : List Reg :=
  [ rcat [litI "Contract Party", rws, litS ":", rws, Reg.grp 1 rdotL, rnlOrEnd],
    rcat [litI "B/L CONSIGNEE", rws, litS ":", rws, Reg.grp 1 rdotL, rnlOrEnd],
    rcat [litI "Contract Party", rws, litS ":", rws, Reg.grp 1 (litI "Apple LTD.")],
    rcat [litI "Contract Party", rdotL, Reg.grp 1 (litI "Apple LTD.")] ]

/-- `(?:Order No\.|Buyers(?:'|')?\s+Order No\.)`. -/
def f3OrderNoHead : Reg :=
  ralt [litI "Order No.",
        rcat [litI "Buyers", ropt rApos, rplus isPySpace, litI "Order No."]]

/-- PO-number patterns of `extract_format3_data`. -/
def f3PoPats : List Reg :=
  [ rcat [f3OrderNoHead, rws, Reg.grp 1 rdotL,
          ralt [Reg.cls (· = '\n'), litI "Grade", litI "Origin"]],
    rcat [f3OrderNoHead, rws, Reg.grp 1 (rcat [litI "M", rplus isAlnumC])],
    rcat [litI "Buyers", ropt rApos, rplus isPySpace, litI "Order No.",
          Reg.grp 1 rdotL, ralt [Reg.cls (· = '\n'), litI "Grade", Reg.eol]] ]

/-- Payment-terms patterns of `extract_format3_data`. -/
def f3PaymentPats : List Reg :=
  [ rcat [litI "Payment term", rws, ropt (Reg.cls (· = '\n')), rws,
          Reg.grp 1 rdotL, rnlOrEnd],
    rcat [litI "Payment", rws, litS ":", rws, Reg.grp 1 rdotL, rnlOrEnd],
    rcat [litI "Payment term", rplus isPySpace, Reg.grp 1 (rcat [rdotL, litI "advance"])],
    rcat [litI "Payment", rplus isPySpace, litI "term", rplus isPySpace,
          Reg.grp 1 (litI "100% TT IN ADVANCE")] ]

/-- Destination patterns of `extract_format3_data`. -/
def f3DestPats : List Reg :=
  [ rcat [litI "PORT OF DISCHARGE", rws, Reg.grp 1 rdotL, rnlOrEnd],
    rcat [litI "PORT OF", rws, litI "DISCHARGE", rws, Reg.grp 1 rdotL,
          ralt [Reg.cls (· = '\n'), litI "Payment"]],
    rcat [litI "PORT OF", rws, litI "DISCHARGE", rplus isPySpace,
          Reg.grp 1 (litI "CIF SHEKOU PORT, CHINA")] ]

/-- Grade patterns of `extract_format3_data`. -/
def f3GradePats : List Reg :=
  [ rcat [litI "Grade", rplus isPySpace, Reg.grp 1 (rplus isAlnumC)],
    rcat [litI "Grade", rplus isPySpace, Reg.grp 1 (litI "B")] ]

/-- Quantity patterns of `extract_format3_data`. -/
def f3QtyPats : List Reg :=
  [ rcat [litI "Qt'y", rws, litI "(mt)", rws, Reg.grp 1 (rplus isDigPeriod)],
    rcat [litI "Qt'y (mt)", rplus isPySpace, Reg.grp 1 (litS "28.8")] ]

/-- Unit-price patterns of `extract_format3_data`. -/
def f3PricePats : List Reg :=
  [ rcat [litI "Unit Price", rws, litS "(", rplus (· ≠ ')'), litS ")", rws,
          Reg.grp 1 (rplus isNumSep)],
    rcat [litI "Unit Price", rws, litI "(USD/mt)", rplus isPySpace,
          Reg.grp 1 (rplus isNumSep)],
    rcat [litI "USD ", Reg.grp 1 (rcat [rplus isNumSep, litS ".00"])] ]

/-- Subtotal patterns of `extract_format3_data`. -/
def f3SubPats : List Reg :=
  [ rcat [litI "Total Amount", rws, Reg.grp 1 (rplus isNumSep)],
    rcat [litI "Total Amount", rplus isPySpace, litI "USD ", Reg.grp 1 (rplus isNumSep)],
    rcat [litI "USD ", Reg.grp 1 (rplus isNumSep), litS ".00", rplus isPySpace, litI "CIF"] ]

/-- `extract_format3_data(text)` (its currency is the constant `"USD"`). -/
def extract_format3_data (text : String) : Except String POResult := do
  let t := text.data
  let customer ← extractFieldByRegex f3CustomerPats t ""
  let po ← extractFieldByRegex f3PoPats t ""
  let payment ← extractFieldByRegex f3PaymentPats t ""
  let dest ← extractFieldByRegex f3DestPats t ""
  let grade ← extractFieldByRegex f3GradePats t ""
  let qty ← extractFieldByRegex f3QtyPats t ""
  let price ← extractFieldByRegex f3PricePats t ""
  let sub ← extractFieldByRegex f3SubPats t ""
  let products :=
    if grade ≠ "" ∨ qty ≠ "" then
      [mkProd (if grade ≠ "" then "Grade " ++ grade else "Unknown Product")
        (cleanNumericField qty) (cleanNumericField price) (cleanNumericField sub)]
    else []
  pure { emptyResult with
           customer_name := customer
           po_number := po
           currency := "USD"
           payment_terms := payment
           destination := dest
           products := products }

/-! ### `extract_generic_data` -/

/-- Customer-name patterns of `extract_generic_data`. -/
def gCustomerPats : List Reg :=
  [ rcat [ralt [litI "Customer", litI "Client", litI "Buyer", litI "Company",
                litI "Purchaser"], litS ":", rws, Reg.grp 1 rdotL, rnlOrEnd],
    rcat [ralt [litI "To", litI "Bill to"], litS ":", rws, Reg.grp 1 rdotL, rnlOrEnd],
    rcat [litI "Contract Party", rws, litS ":", rws, Reg.grp 1 rdotL, rnlOrEnd],
    rcat [litI "B/L CONSIGNEE", rws, litS ":", rws, Reg.grp 1 rdotL, rnlOrEnd],
    rcat [litI "ABC Company", rws, Reg.grp 1 rdotL, rnlOrEnd],
    rcat [litI "(Buyer", rApos, litI "s Info)", rdotL,
          Reg.grp 1 (rcat [rplus isAlnumWsC, litI "Company"])] ]

/-- PO-number patterns of `extract_generic_data`. -/
def gPoPats : List Reg :=
  [ rcat [ralt [litI "PO", litI "Purchase Order", litI "Order"], litS " ",
          ralt [litI "No", litI "Number", litS "#"], ropt (litS "."), ropt (litS ":"),
          rws, Reg.grp 1 (rcat [rplus isPyWord, rplus (fun c => c = '-' || isPyDigit c)])],
    rcat [ralt [litI "PO", litI "Purchase Order", litI "Order"], litS " ",
          ralt [litI "No", litI "Number", litS "#"], ropt (litS "."), ropt (litS ":"),
          rws, Reg.grp 1 (rplus isPyDigit)],
    rcat [litI "Order No.", rws, Reg.grp 1 rdotL,
          ralt [Reg.cls (· = '\n'), litI "Grade", litI "Origin"]],
    rcat [litI "Buyers", ropt rApos, rplus isPySpace, litI "Order No.", rws,
          Reg.grp 1 rdotL, ralt [Reg.cls (· = '\n'), litI "Grade", Reg.eol]],
    rcat [litI "Purchase Order", ropt (litS ":"), rws, Reg.grp 1 (rplus isAlnumDash)] ]

/-- Payment-terms patterns of `extract_generic_data`. -/
def gPaymentPats : List Reg :=
  [ rcat [ralt [rcat [litI "Payment Term", ropt (litI "s")], litI "Terms of Payment",
                litI "Terms", litI "Payment"], litS ":", rws, Reg.grp 1 rdotL, rnlOrEnd],
    rcat [litI "Net Due within", rws, Reg.grp 1 rdotL, rnlOrEnd],
    rcat [litI "Payment term", rws, ropt (Reg.cls (· = '\n')), rws,
          Reg.grp 1 rdotL, rnlOrEnd] ]

/-- Destination patterns of `extract_generic_data`. -/
def gDestPats : List Reg :=
  [ rcat [ralt [litI "Destination", litI "Ship to", litI "Delivery Address",
                litI "Port of Discharge", litI "Discharge Port", litI "PORT OF DISCHARGE"],
          litS ":", rws, Reg.grp 1 rdotL, rnlOrEnd],
    rcat [ralt [litI "To", litI "Deliver to"], litS ":", rws, Reg.grp 1 rdotL, rnlOrEnd] ]

/-- Method-1 table pattern of `extract_generic_data` (no flags):
`([A-Za-z0-9]+)\s+(Product [A-Za-z]|Grade [A-Za-z0-9]+)\s+([\d,]+)\s*(?:kg|mt)\s+(?:US\$)?([\d.]+)\s+(?:US\$)?([\d,.]+)`. -/
def gM1Pat : Reg :=
  rcat [Reg.grp 1 (rplus isAlnumC), rplus isPySpace,
        Reg.grp 2 (ralt [rcat [litS "Product ", Reg.cls isAsciiAlpha],
                         rcat [litS "Grade ", rplus isAlnumC]]), rplus isPySpace,
        Reg.grp 3 (rplus isDigComma), rws, ralt [litS "kg", litS "mt"], rplus isPySpace,
        ropt (litS "US$"), Reg.grp 4 (rplus isDigPeriod), rplus isPySpace,
        ropt (litS "US$"), Reg.grp 5 (rplus isNumSep)]

/-- `.*?` under `re.DOTALL`. -/
def rdotAllL : Reg := Reg.star true (fun _ => true)

/-- Method-2 section pattern of `extract_generic_data` (`re.DOTALL`, case
sensitive):
`(?:Product [A-Za-z]|Grade [A-Za-z0-9]+|Item:.*?).*?(\d+)(?:\s*|\n+)(?:kg|mt|KG|MT).*?(?:US\$|Unit Price:?\s*\$?)?\s*([\d,.]+).*?(?:US\$)?\s*([\d,.]+)`. -/
def gM2Pat : Reg :=
  rcat [ralt [rcat [litS "Product ", Reg.cls isAsciiAlpha],
              rcat [litS "Grade ", rplus isAlnumC],
              rcat [litS "Item:", rdotAllL]],
        rdotAllL, Reg.grp 1 (rplus isPyDigit),
        ralt [rws, rplus (· = '\n')],
        ralt [litS "kg", litS "mt", litS "KG", litS "MT"],
        rdotAllL,
        ropt (ralt [litS "US$", rcat [litS "Unit Price", ropt (litS ":"), rws, ropt (litS "$")]]),
        rws, Reg.grp 2 (rplus isNumSep),
        rdotAllL, ropt (litS "US$"), rws, Reg.grp 3 (rplus isNumSep)]

/-- Method-2 name pattern of `extract_generic_data` (no flags):
`(?:Product ([A-Z])|Grade ([A-Za-z0-9]+)|Item:\s*(.*?)(?:\n|$))`. -/
def gNamePat : Reg :=
  ralt [rcat [litS "Product ", Reg.grp 1 (Reg.cls isUpperC)],
        rcat [litS "Grade ", Reg.grp 2 (rplus isAlnumC)],
        rcat [litS "Item:", rws, Reg.grp 3 (Reg.star true (· ≠ '\n')),
              ralt [Reg.cls (· = '\n'), Reg.eos]]]

/-- Method-3 product-name patterns of `extract_generic_data`. -/
def gNamePats3 : List Reg :=
  [ rcat [litI "Item:", rws, Reg.grp 1 rdotL, rnlOrEnd],
    rcat [litI "Product", ropt (litS ":"), rws, Reg.grp 1 rdotL,
          ralt [Reg.cls (· = '\n'), litI "Quantity"]],
    rcat [litI "Grade", rplus isPySpace, Reg.grp 1 (rplus isAlnumC)] ]

/-- Method-3 quantity patterns of `extract_generic_data`. -/
def gQtyPats3 : List Reg :=
  [ rcat [litI "Quantity:", rws, Reg.grp 1 (rplus isNumSep), rws, rUnits],
    rcat [litI "Qty", ropt (litS ":"), rws, Reg.grp 1 (rplus isNumSep), rws, rUnits],
    rcat [litI "Qt'y", rws, litI "(mt)", rws, Reg.grp 1 (rplus isDigPeriod)] ]

/-- Method-3 unit-price patterns of `extract_generic_data`. -/
def gPricePats3 : List Reg :=
  [ rcat [litI "Unit Price:", rws, ropt (litS "$"), rws, Reg.grp 1 (rplus isNumSep)],
    rcat [litI "Unit Price:", rdotL, litI "per", rws, rdotL, ropt (litS "$"), rws,
          Reg.grp 1 (rplus isNumSep)],
    rcat [litI "Unit Price", rws, litS "(", rplus (· ≠ ')'), litS ")", rws,
          Reg.grp 1 (rplus isNumSep)] ]

/-- Method-3 subtotal patterns of `extract_generic_data`. -/
def gSubPats3 : List Reg :=
  [ rcat [litI "EXT Price:", rws, Reg.grp 1 (rplus isNumSep)],
    rcat [litI "Amount:", rws, Reg.grp 1 (rplus isNumSep)],
    rcat [litI "Total Amount", rws, Reg.grp 1 (rplus isNumSep)] ]

/-- The product-name computation of `extract_generic_data`'s method 2: the
name search is run on the whole text for every row; an existing match with
all three groups empty leaves the name empty, and no match at all gives
`Unknown Product {i+1}`. -/
def gM2Name (t : List Char) (i : Nat) : String :=
  match searchCaps gNamePat t with
  | some c =>
    if capD c 1 ≠ [] then "Product " ++ (⟨capD c 1⟩ : String)
    else if capD c 2 ≠ [] then "Grade " ++ (⟨capD c 2⟩ : String)
    else if capD c 3 ≠ [] then (⟨capD c 3⟩ : String)
    else ""
  | none => "Unknown Product " ++ (⟨natDigits (i + 1)⟩ : String)

/-- `extract_generic_data(text)`. -/
def extract_generic_data (text : String) : Except String POResult := do
  let t := text.data
  let customer ← extractFieldByRegex gCustomerPats t ""
  let po ← extractFieldByRegex gPoPats t ""
  let currency := (searchCurrency t).getD "USD"
  let payment ← extractFieldByRegex gPaymentPats t ""
  let dest ← extractFieldByRegex gDestPats t ""
  let rows := findall gM1Pat t
  let products ←
    if rows ≠ [] then
      pure (rows.map fun c =>
        mkProd ⟨stripPy (capD c 2)⟩ (cleanNumericField ⟨capD c 3⟩)
          (cleanNumericField ⟨capD c 4⟩) (cleanNumericField ⟨capD c 5⟩))
    else
      let sections := findall gM2Pat t
      if sections ≠ [] then
        pure (sections.enum.map fun ic =>
          mkProd (gM2Name t ic.1) (cleanNumericField ⟨capD ic.2 1⟩)
            (cleanNumericField ⟨capD ic.2 2⟩) (cleanNumericField ⟨capD ic.2 3⟩))
      else do
        let pname ← extractFieldByRegex gNamePats3 t ""
        let qty ← extractFieldByRegex gQtyPats3 t ""
        let price ← extractFieldByRegex gPricePats3 t ""
        let sub ← extractFieldByRegex gSubPats3 t ""
        if pname ≠ "" ∨ qty ≠ "" then
          pure [mkProd (if pname ≠ "" then pname else "Unknown Product")
            (cleanNumericField qty) (cleanNumericField price) (cleanNumericField sub)]
        else pure []
  pure { emptyResult with
           customer_name := customer
           po_number := po
           currency := currency
           payment_terms := payment
           destination := dest
           products := products }

/-! ### `validate_and_clean_result`

The per-product work is split into the three steps of the source's loop body:
name cleaning, the quantity repair from the product name, and the
quantity/price/subtotal derivation.  The two regex operations of the loop
(`re.search(r'(\d+(?:\.\d+)?)\s*(?:pcs|pieces|units|qty|kg|mt)', ...)` and the
`re.sub` of the same pattern with a leading `\s*`) are implemented directly:
in these patterns the greedy `\d+`, `(?:\.\d+)?` and `\s*` never need
backtracking (a shorter digit or whitespace run leaves the next character a
digit or a space, which no unit token starts with), so a maximal-munch scan
is exact. -/

/-- The unit alternation `(?:pcs|pieces|units|qty|kg|mt)`, in written order. -/
def qtyUnitToks : List (List Char) :=
  ["pcs".data, "pieces".data, "units".data, "qty".data, "kg".data, "mt".data]

/-- Case-insensitive: `tok` is a front segment of `s`. -/
def ciHasPre (tok s : List Char) : Bool :=
  match tok, s with
  | [], _ => true
  | _ :: _, [] => false
  | a :: ts, c :: cs => eqCI a c && ciHasPre ts cs

/-- Match `(\d+(?:\.\d+)?)\s*(?:pcs|pieces|units|qty|kg|mt)` (IGNORECASE) at
the head of `s`: returns the captured number and the rest after the match. -/
def qtyUnitHere (s : List Char) : Option (List Char × List Char) :=
  let ds := s.takeWhile isPyDigit
  if ds = [] then none
  else
    let rest1 := s.drop ds.length
    let fr : Option (List Char × List Char) :=
      match rest1 with
      | '.' :: r2 =>
        let fds := r2.takeWhile isPyDigit
        if fds = [] then none else some (fds, r2.drop fds.length)
      | _ => none
    let num := match fr with
      | some fd => ds ++ '.' :: fd.1
      | none => ds
    let rest2 := match fr with
      | some fd => fd.2
      | none => rest1
    let rest3 := rest2.dropWhile isPySpace
    match qtyUnitToks.find? (fun tok => ciHasPre tok rest3) with
    | some tok => some (num, rest3.drop tok.length)
    | none => none

/-- `re.search` of the quantity pattern: the number captured by the leftmost
match, if any. -/
def qtyUnitSearch : List Char → Option (List Char)
  | [] => none
  | c :: cs =>
    match qtyUnitHere (c :: cs) with
    | some nr => some nr.1
    | none => qtyUnitSearch cs

/-- One step of the `re.sub`: a match at this very position of
`\s*\d+(?:\.\d+)?\s*(?:pcs|...)` (leading whitespace included), returning the
rest after the match. -/
def qtyUnitSubHere (s : List Char) : Option (List Char) :=
  match qtyUnitHere (s.dropWhile isPySpace) with
  | some nr => some nr.2
  | none => none

/-- `re.sub(r'\s*\d+(?:\.\d+)?\s*(?:pcs|pieces|units|qty|kg|mt)', '', name)`:
remove every non-overlapping leftmost match (each match consumes at least
three characters, so fuel `length + 1` is always enough). -/
def qtyUnitRemoveAux : Nat → List Char → List Char
  | 0, s => s
  | _ + 1, [] => []
  | fuel + 1, c :: cs =>
    match qtyUnitSubHere (c :: cs) with
    | some rest => qtyUnitRemoveAux fuel rest
    | none => c :: qtyUnitRemoveAux fuel cs

/-- The `re.sub` deleting all quantity-with-unit occurrences from a name. -/
def qtyUnitRemove (l : List Char) : List Char := qtyUnitRemoveAux (l.length + 1) l

/-- Product-name cleaning (`validate_and_clean_result`, first step of the
loop): strip a non-empty name, replace an empty one by `Product {i+1}`. -/
def nameStep (i : Nat) (p : Product) : Product :=
  if p.product_name ≠ "" then { p with product_name := ⟨stripPy p.product_name.data⟩ }
  else { p with product_name := "Product " ++ (⟨natDigits (i + 1)⟩ : String) }

/-- Quantity repair from the product name (`validate_and_clean_result`): when
the quantity parses to a value `<= 0` or `> 100000` and the (non-empty) name
contains a number followed by a unit token, the parsed number (as
`str(float(...))`) replaces the quantity and all pattern occurrences are
deleted from the name.  The source's inner `try` never fires: `float` of the
captured digits cannot fail. -/
def fixupStep (p : Product) : Product :=
  let qty := extractFloat p.quantity
  if qty.le0 || qty.gtNat 100000 then
    if p.product_name ≠ "" then
      match qtyUnitSearch p.product_name.data with
      | some num =>
        let q := (pyFloatParse num).getD PyNum.zero
        { p with
            quantity := q.toStr
            product_name := ⟨qtyUnitRemove p.product_name.data⟩ }
      | none => p
    else p
  else p

/-- The subtotal/unit-price/quantity derivation (`validate_and_clean_result`):
with all three fields re-parsed, fill the one that is `<= 0` from the other
two when both are `> 0`, rounding to 2 decimals and storing `str(...)`. -/
def deriveStep (p : Product) : Product :=
  let qty := extractFloat p.quantity
  let price := extractFloat p.unit_price
  let sub := extractFloat p.subtotal
  if sub.le0 && qty.pos && price.pos then
    { p with subtotal := (PyNum.round2 (qty.mul price)).toStr }
  else if price.le0 && qty.pos && sub.pos then
    { p with unit_price := (PyNum.round2 (sub.div qty)).toStr }
  else if qty.le0 && price.pos && sub.pos then
    { p with quantity := (PyNum.round2 (sub.div price)).toStr }
  else p

/-- The whole loop body of `validate_and_clean_result` for product `i`. -/
def cleanProduct (i : Nat) (p : Product) : Product :=
  deriveStep (fixupStep (nameStep i p))

/-- String-field cleaning of `validate_and_clean_result`: collapse whitespace
runs and strip, applied only to non-empty values. -/
def cleanStrField (s : String) : String :=
  if s ≠ "" then ⟨stripPy (collapseWs s.data)⟩ else s

/-- The same cleaning for `po_number`, with the extra `[:;,.\s]` end-trim. -/
def cleanPoNumber (s : String) : String :=
  if s ≠ "" then ⟨trimClass isPoPunct (stripPy (collapseWs s.data))⟩ else s

/-- The placeholder product appended when no product was extracted. -/
def placeholderProduct : Product := mkProd "Unknown Product" "0" "0" "0"

/-- `validate_and_clean_result(data)`: clean the five string fields, default
the products list to one placeholder, run the loop body on every product
(including the placeholder), and default an empty currency to `"USD"`.  No
other key is touched: in particular a `total_amount` key is neither read nor
written. -/
def validate_and_clean_result (d : POResult) : POResult :=
  let prods0 := if d.products = [] then [placeholderProduct] else d.products
  { customer_name := cleanStrField d.customer_name
    po_number := cleanPoNumber d.po_number
    currency :=
      if cleanStrField d.currency = "" then "USD" else cleanStrField d.currency
    products := prods0.enum.map fun ip => cleanProduct ip.1 ip.2
    payment_terms := cleanStrField d.payment_terms
    destination := cleanStrField d.destination
    total_amount := d.total_amount }

/-- The field-name unification at the end of `extract_po_data`: each product
without an `amount` key gains one mirroring `subtotal` (products always have
`subtotal` and `product_name` keys, so the other branch of the source is
inert). -/
def finalizeResult (r : POResult) : POResult :=
  { r with
      products := r.products.map fun p =>
        if p.amount = none then { p with amount := some p.subtotal } else p }

/-- `extract_po_data(text)`: classify, dispatch to the matching extractor,
validate and unify field names.  There is no `try` anywhere on this path: an
exception from an extractor propagates to the caller. -/
def extract_po_data (text : String) : Except String POResult := do
  let po_format := identify_po_format text
  let raw ←
    if po_format = "format1" then extract_format1_data text
    else if po_format = "format2" then extract_format2_data text
    else if po_format = "format3" then extract_format3_data text
    else extract_generic_data text
  pure (finalizeResult (validate_and_clean_result raw))

/-! ## Claims -/

/-- C1: the spec claims `extract_po_data` never raises and always returns a
well-formed record.  The code violates this: on the text below the classifier
picks `format2`, the three table methods find no product, and the fallback's
quantity patterns (`(?:[\d,]+)\s*kg`, `Quantity\s+(?:[\d,]+)`) have no
capturing group, so the successful search makes `match.group(1)` raise
`IndexError`, which propagates out of `extract_po_data` (no handler exists on
this path). -/
theorem C1_extract_po_data_raises :
    extract_po_data "Supplier: S\n123 kg" = .error "IndexError: no such group" := by
  decide

/-- C2, counterexample: the claim says a draft without `total_amount` is
validated to a record whose `total_amount` is the sum of the product
subtotals; in fact validation leaves the key absent (`none`), so it is not
`some` of any sum. -/
theorem C2_counterexample :
    (validate_and_clean_result
      ⟨"", "", "", [mkProd "P" "1" "2" "2"], "", "", none⟩).total_amount = none := by
  decide

/-- C2, amended: `validate_and_clean_result` never creates, reads or changes
a `total_amount` key — the field is returned exactly as in the draft (in
particular an absent `total_amount` stays absent, and is never set to the sum
of the product subtotals). -/
theorem C2_total_amount_untouched (d : POResult) :
    (validate_and_clean_result d).total_amount = d.total_amount := rfl

/-- C3, counterexample: the claim says a non-generic result is the strictly
highest-scoring profile (and that a sub-threshold winner yields `generic`).
On this text `format1` and `format2` tie at score 5 (out of maximal
attainable scores 33) and the classifier still returns `format1`, which is
neither strictly highest-scoring nor `generic`. -/
theorem C3_counterexample :
    identify_po_format "ABC Company Supplier:" = "format1" ∧
    featureScore format1Features "ABC Company Supplier:".data = 5 ∧
    featureScore format2Features "ABC Company Supplier:".data = 5 := by
  decide

/-- C3, amended: `identify_po_format` returns `generic` exactly when all
three profile scores are 0 — there is no confidence threshold — and
otherwise returns the first profile, in the fixed order `format1`,
`format2`, `format3`, attaining the maximal score (Python's `max` over the
insertion-ordered dict). -/
theorem C3_classifier_rule (t : String) :
    (identify_po_format t = "generic" ↔
      featureScore format1Features t.data = 0 ∧
      featureScore format2Features t.data = 0 ∧
      featureScore format3Features t.data = 0) ∧
    (¬(featureScore format1Features t.data = 0 ∧
       featureScore format2Features t.data = 0 ∧
       featureScore format3Features t.data = 0) →
      (identify_po_format t = "format1" ∧
        featureScore format2Features t.data ≤ featureScore format1Features t.data ∧
        featureScore format3Features t.data ≤ featureScore format1Features t.data) ∨
      (identify_po_format t = "format2" ∧
        featureScore format1Features t.data < featureScore format2Features t.data ∧
        featureScore format3Features t.data ≤ featureScore format2Features t.data) ∨
      (identify_po_format t = "format3" ∧
        featureScore format1Features t.data < featureScore format3Features t.data ∧
        featureScore format2Features t.data < featureScore format3Features t.data)) := by
  have hrw : identify_po_format t =
      (if featureScore format1Features t.data = 0 ∧
          featureScore format2Features t.data = 0 ∧
          featureScore format3Features t.data = 0 then "generic"
       else if featureScore format1Features t.data < featureScore format2Features t.data then
         (if featureScore format2Features t.data < featureScore format3Features t.data
          then "format3" else "format2")
       else if featureScore format1Features t.data < featureScore format3Features t.data
       then "format3" else "format1") := rfl
  rw [hrw]
  constructor
  · constructor
    · intro hg
      by_contra hne
      split_ifs at hg <;> simp_all
    · intro h0
      simp [h0.1, h0.2.1, h0.2.2]
  · intro h0
    by_cases h2 : featureScore format1Features t.data < featureScore format2Features t.data
    · by_cases h3 : featureScore format2Features t.data < featureScore format3Features t.data
      · right; right
        exact ⟨by rw [if_neg h0, if_pos h2, if_pos h3], by omega, by omega⟩
      · right; left
        exact ⟨by rw [if_neg h0, if_pos h2, if_neg h3], by omega, by omega⟩
    · by_cases h3 : featureScore format1Features t.data < featureScore format3Features t.data
      · right; right
        exact ⟨by rw [if_neg h0, if_neg h2, if_pos h3], by omega, by omega⟩
      · left
        exact ⟨by rw [if_neg h0, if_neg h2, if_neg h3], by omega, by omega⟩

/-- C3, witness: the amended rule applied to the tying text. -/
theorem C3_witness :
    (identify_po_format "ABC Company Supplier:" = "format1" ∧
      featureScore format2Features "ABC Company Supplier:".data ≤
        featureScore format1Features "ABC Company Supplier:".data ∧
      featureScore format3Features "ABC Company Supplier:".data ≤
        featureScore format1Features "ABC Company Supplier:".data) ∨
    (identify_po_format "ABC Company Supplier:" = "format2" ∧
      featureScore format1Features "ABC Company Supplier:".data <
        featureScore format2Features "ABC Company Supplier:".data ∧
      featureScore format3Features "ABC Company Supplier:".data ≤
        featureScore format2Features "ABC Company Supplier:".data) ∨
    (identify_po_format "ABC Company Supplier:" = "format3" ∧
      featureScore format1Features "ABC Company Supplier:".data <
        featureScore format3Features "ABC Company Supplier:".data ∧
      featureScore format2Features "ABC Company Supplier:".data <
        featureScore format3Features "ABC Company Supplier:".data) :=
  (C3_classifier_rule "ABC Company Supplier:").2 (by decide)

/-- C4, counterexample: the claim says an empty `customer_name` becomes a
sentinel and an empty `po_number` becomes `"N/A"`; validation leaves both
empty. -/
theorem C4_counterexample :
    (validate_and_clean_result
      ⟨"", "", "", [mkProd "P" "1" "1" "1"], "", "", none⟩).customer_name = "" ∧
    (validate_and_clean_result
      ⟨"", "", "", [mkProd "P" "1" "1" "1"], "", "", none⟩).po_number = "" := by
  decide

/-- C4, amended: of the three fields only `currency` is defaulted (to
`"USD"`); an empty `customer_name` or `po_number` is left empty, so only the
currency is guaranteed non-empty in the validated record. -/
theorem C4_only_currency_defaulted (d : POResult) :
    (validate_and_clean_result d).currency ≠ "" ∧
    (d.customer_name = "" → (validate_and_clean_result d).customer_name = "") ∧
    (d.po_number = "" → (validate_and_clean_result d).po_number = "") ∧
    (d.currency = "" → (validate_and_clean_result d).currency = "USD") := by
  refine ⟨?_, ?_, ?_, ?_⟩
  · show (if cleanStrField d.currency = "" then "USD" else cleanStrField d.currency) ≠ ""
    split_ifs with h
    · decide
    · exact h
  · intro h
    show cleanStrField d.customer_name = ""
    rw [h]; decide
  · intro h
    show cleanPoNumber d.po_number = ""
    rw [h]; decide
  · intro h
    show (if cleanStrField d.currency = "" then "USD" else cleanStrField d.currency) = "USD"
    rw [h]; decide

/-- C4, witness: the amended statement applied to an all-empty draft. -/
theorem C4_witness :
    (validate_and_clean_result ⟨"", "", "", [mkProd "P" "1" "1" "1"], "", "", none⟩).customer_name = "" ∧
    (validate_and_clean_result ⟨"", "", "", [mkProd "P" "1" "1" "1"], "", "", none⟩).po_number = "" ∧
    (validate_and_clean_result ⟨"", "", "", [mkProd "P" "1" "1" "1"], "", "", none⟩).currency = "USD" :=
  ⟨(C4_only_currency_defaulted _).2.1 rfl,
   (C4_only_currency_defaulted _).2.2.1 rfl,
   (C4_only_currency_defaulted _).2.2.2 rfl⟩

/-! Helper lemmas about `rfindPos` (Python `str.rfind`). -/

/-- A successful `findIdx?` means some member satisfies the predicate. -/
theorem findIdx?_mem {p : Char → Bool} :
    ∀ (l : List Char) (i k : Nat), l.findIdx? p i = some k → ∃ c ∈ l, p c = true := by
  intro l
  induction l with
  | nil => intro i k h; simp [List.findIdx?] at h
  | cons a as ih =>
    intro i k h
    rw [List.findIdx?_cons] at h
    by_cases hp : p a
    · exact ⟨a, List.mem_cons_self a as, hp⟩
    · simp only [hp, if_false] at h
      obtain ⟨c, hc, hpc⟩ := ih _ _ h
      exact ⟨c, List.mem_cons_of_mem a hc, hpc⟩

/-- A non-negative `rfindPos` means the character occurs in the list. -/
theorem rfind_mem {l : List Char} {ch : Char} (h : 0 ≤ rfindPos l ch) : ch ∈ l := by
  unfold rfindPos at h
  cases hf : l.reverse.findIdx? (fun c => c = ch) with
  | none => rw [hf] at h; simp at h
  | some k =>
    obtain ⟨c, hc, hpc⟩ := findIdx?_mem l.reverse 0 k hf
    have : c = ch := by simpa using hpc
    subst this
    exact List.mem_reverse.mp hc

/-- If every element is `ch`, `rfindPos` is the last index. -/
theorem rfind_all {l : List Char} {ch : Char} (hne : l ≠ [])
    (hall : ∀ x ∈ l, x = ch) : rfindPos l ch = (l.length : Int) - 1 := by
  unfold rfindPos
  have hrevne : l.reverse ≠ [] := by simpa using hne
  cases hrev : l.reverse with
  | nil => exact absurd hrev hrevne
  | cons a as =>
    have ha : a = ch := hall a (List.mem_reverse.mp (by rw [hrev]; exact List.mem_cons_self a as))
    rw [List.findIdx?_cons]
    simp [ha]

/-- C6, counterexample: with the comma at index 0 the `rfind(...) > 0` guards
fail, so `",5"` is returned unchanged although the claim's rule (lone comma
within the last 3 characters becomes a decimal point) demands `".5"`. -/
theorem C6_counterexample :
    cleanNumericField ",5" = ",5" ∧ cleanNumericField ",5" ≠ ".5" := by decide

/-- C6, amended: the separator rules apply to the positions of the *last*
comma and period and only when those are at index ≥ 1 (`rfind > 0`); with
both present the later one becomes the decimal point (all periods resp.
commas of the other kind being dropped), with only a comma present it
becomes a decimal point iff it lies within the last 3 characters, and in
every other case (separators absent or only at index 0) the stripped string
is returned unchanged; the four concrete normalizations of the claim hold. -/
theorem C6_separator_rules (s : String) :
    (cleanNumericField "1,234.56" = "1234.56" ∧ cleanNumericField "1.234,56" = "1234.56" ∧
     cleanNumericField "1234,56" = "1234.56" ∧ cleanNumericField "abc" = "") ∧
    (0 < rfindPos (filterNumeric s.data) ',' → 0 < rfindPos (filterNumeric s.data) '.' →
      (rfindPos (filterNumeric s.data) '.' < rfindPos (filterNumeric s.data) ',' →
        cleanNumericL s.data = replaceChar ',' '.' (removeChar '.' (filterNumeric s.data))) ∧
      (rfindPos (filterNumeric s.data) ',' < rfindPos (filterNumeric s.data) '.' →
        cleanNumericL s.data = removeChar ',' (filterNumeric s.data))) ∧
    (0 < rfindPos (filterNumeric s.data) ',' → rfindPos (filterNumeric s.data) '.' ≤ 0 →
      (((filterNumeric s.data).length : Int) - rfindPos (filterNumeric s.data) ',' ≤ 3 →
        cleanNumericL s.data = replaceChar ',' '.' (filterNumeric s.data)) ∧
      (3 < ((filterNumeric s.data).length : Int) - rfindPos (filterNumeric s.data) ',' →
        cleanNumericL s.data = removeChar ',' (filterNumeric s.data))) ∧
    (rfindPos (filterNumeric s.data) ',' ≤ 0 → cleanNumericL s.data = filterNumeric s.data) := by
  refine ⟨by decide, ?_, ?_, ?_⟩
  all_goals
    unfold cleanNumericL
    by_cases hnil : s.data = []
  · intro hc; rw [hnil] at hc ⊢; simp [filterNumeric, rfindPos, List.findIdx?] at hc
  · intro hc hp
    rw [if_neg hnil]
    constructor
    · intro hlt
      rw [if_pos ⟨hc, hp⟩, if_pos hlt]
    · intro hlt
      rw [if_pos ⟨hc, hp⟩, if_neg (by omega)]
  · intro hc; rw [hnil] at hc ⊢; simp [filterNumeric, rfindPos, List.findIdx?] at hc
  · intro hc hp
    rw [if_neg hnil, if_neg (by omega)]
    rw [if_pos hc]
    constructor
    · intro h3; rw [if_pos h3]
    · intro h3; rw [if_neg (by omega)]
  · intro _; rw [hnil]; rfl
  · intro hc
    rw [if_neg hnil, if_neg (by omega), if_neg (by omega)]

/-- C6, witness: the both-present rule applied to `"1.234,56"` (last comma
after last period, so periods are dropped and the comma becomes the decimal
point). -/
theorem C6_witness :
    cleanNumericL "1.234,56".data =
      replaceChar ',' '.' (removeChar '.' (filterNumeric "1.234,56".data)) :=
  (((C6_separator_rules "1.234,56").2.1 (by decide) (by decide)).1 (by decide))

/-- C7, counterexample: the claim says the normalizer returns `""` whenever
the stripped string is not parseable as a number; `"."` strips to the
unparseable `"."`, which is returned as is, not as `""`. -/
theorem C7_counterexample :
    cleanNumericField "." = "." ∧ cleanNumericField "." ≠ "" ∧
    pyFloatParse (cleanNumericField ".").data = none := by decide

/-- C7, amended: `_clean_numeric_field` returns `""` exactly when the
stripped string is empty; a non-empty unparseable residue is returned
verbatim, and it is `_extract_float` that maps any unparseable result
(swallowing the `float` failure) to 0. -/
theorem C7_empty_iff_stripped_empty (s : String) :
    (cleanNumericField s = "" ↔ filterNumeric s.data = []) ∧
    (pyFloatParse (cleanNumericField s).data = none → extractFloat s = PyNum.zero) := by
  constructor
  · simp only [cleanNumericField, String.ext_iff]
    show cleanNumericL s.data = "".data ↔ _
    constructor
    · intro h
      by_contra hc
      unfold cleanNumericL at h
      by_cases hnil : s.data = []
      · exact hc (by simp [filterNumeric, hnil])
      · rw [if_neg hnil] at h
        dsimp only at h
        split_ifs at h with h1 h2 h3 h4
        · have hm : ',' ∈ filterNumeric s.data := rfind_mem (le_of_lt h1.1)
          have hm2 : ',' ∈ removeChar '.' (filterNumeric s.data) := by
            unfold removeChar
            exact List.mem_filter.mpr ⟨hm, by decide⟩
          have hne := List.ne_nil_of_mem hm2
          unfold replaceChar at h
          rw [List.map_eq_nil_iff] at h
          exact hne h
        · have hm : '.' ∈ filterNumeric s.data := rfind_mem (le_of_lt h1.2)
          have hm2 : '.' ∈ removeChar ',' (filterNumeric s.data) := by
            unfold removeChar
            exact List.mem_filter.mpr ⟨hm, by decide⟩
          exact List.ne_nil_of_mem hm2 h
        · unfold replaceChar at h
          rw [List.map_eq_nil_iff] at h
          exact hc h
        · unfold removeChar at h
          rw [List.filter_eq_nil_iff] at h
          have hall : ∀ x ∈ filterNumeric s.data, x = ',' := by
            intro x hx
            simpa using h x hx
          have hra := rfind_all hc hall
          rw [hra] at h4
          have hlen : 0 < (filterNumeric s.data).length := List.length_pos.mpr hc
          omega
        · exact hc h
    · intro h
      unfold cleanNumericL
      by_cases hnil : s.data = []
      · rw [if_pos hnil]
      · rw [if_neg hnil, h]
        decide
  · intro hn
    have hn' : pyFloatParse (cleanNumericL s.data) = none := hn
    unfold extractFloat
    by_cases h1 : s = ""
    · rw [if_pos h1]
    · rw [if_neg h1]
      dsimp only
      by_cases h2 : cleanNumericL s.data = []
      · rw [if_pos h2]
      · rw [if_neg h2, hn']

/-- C7, witness: the rule applied to `"."` (non-empty residue kept,
`_extract_float` maps it to 0) and to `"abc"` (empty residue). -/
theorem C7_witness :
    extractFloat "." = PyNum.zero ∧ (cleanNumericField "abc" = "" ↔ filterNumeric "abc".data = []) :=
  ⟨(C7_empty_iff_stripped_empty ".").2 (by decide), (C7_empty_iff_stripped_empty "abc").1⟩

/-- C9, counterexample: on this text the classifier picks `format1`, whose
recipe extracts an empty `po_number` AND an empty `customer_name`; the claim
says the pipeline then falls back to the generic recipe (which would extract
`customer_name = "Bob"`), but `extract_po_data` keeps the format1 draft and
returns an empty customer name. -/
theorem C9_counterexample :
    identify_po_format "Ship to: X\nCustomer: Bob" = "format1" ∧
    (extract_format1_data "Ship to: X\nCustomer: Bob").map POResult.po_number = .ok "" ∧
    (extract_format1_data "Ship to: X\nCustomer: Bob").map POResult.customer_name = .ok "" ∧
    (extract_po_data "Ship to: X\nCustomer: Bob").map POResult.customer_name = .ok "" ∧
    (extract_generic_data "Ship to: X\nCustomer: Bob").map
      (fun r => (finalizeResult (validate_and_clean_result r)).customer_name) = .ok "Bob" := by
  decide

/-- C9, amended: there is no fallback of any kind in `extract_po_data`: for a
text classified as `format1`/`format2`/`format3` the pipeline output is
always the validated draft of that profile's recipe, whatever its
`po_number` and `customer_name` are. -/
theorem C9_no_fallback (t : String) :
    (identify_po_format t = "format1" →
      extract_po_data t = (extract_format1_data t).map
        (fun r => finalizeResult (validate_and_clean_result r))) ∧
    (identify_po_format t = "format2" →
      extract_po_data t = (extract_format2_data t).map
        (fun r => finalizeResult (validate_and_clean_result r))) ∧
    (identify_po_format t = "format3" →
      extract_po_data t = (extract_format3_data t).map
        (fun r => finalizeResult (validate_and_clean_result r))) := by
  refine ⟨?_, ?_, ?_⟩ <;> intro h <;> unfold extract_po_data <;> rw [h] <;> simp <;> rfl

/-- C9, witness: the amended statement applied to the counterexample text
(classified `format1` with an empty po number and customer name). -/
theorem C9_witness :
    extract_po_data "Ship to: X\nCustomer: Bob" =
      (extract_format1_data "Ship to: X\nCustomer: Bob").map
        (fun r => finalizeResult (validate_and_clean_result r)) :=
  (C9_no_fallback "Ship to: X\nCustomer: Bob").1 (by decide)

/-- C10, counterexample: for the name `"A 5 kg 6 mt"` the claim predicts that
only the matched substring `"5 kg"` is removed (leaving `"A  6 mt"`); the
code's `re.sub` removes every occurrence (with its leading whitespace), so
the validated name is `"A"`. -/
theorem C10_counterexample :
    (validate_and_clean_result
      ⟨"", "", "", [mkProd "A 5 kg 6 mt" "0" "0" "0"], "", "", none⟩).products =
      [⟨"A", "5.0", "0", "0", none⟩] ∧ ("A" : String) ≠ "A  6 mt" := by
  decide

/-- C10, amended: for a product whose quantity parses within
`(0, 100000]` the name-based repair does nothing; for one outside that range
(and a non-empty name, which always holds at this point of the loop) the
captured number of the leftmost name match replaces the quantity as
`str(float(...))` and ALL occurrences of optional-whitespace + number + unit
are removed from the name; with no match both fields are left unchanged. -/
theorem C10_fixup_rule (p : Product) :
    (((extractFloat p.quantity).le0 || (extractFloat p.quantity).gtNat 100000) = false →
      fixupStep p = p) ∧
    (((extractFloat p.quantity).le0 || (extractFloat p.quantity).gtNat 100000) = true →
      p.product_name ≠ "" →
      (qtyUnitSearch p.product_name.data = none → fixupStep p = p) ∧
      (∀ num, qtyUnitSearch p.product_name.data = some num →
        fixupStep p = { p with
          quantity := ((pyFloatParse num).getD PyNum.zero).toStr
          product_name := ⟨qtyUnitRemove p.product_name.data⟩ })) := by
  unfold fixupStep
  constructor
  · intro h
    rw [if_neg (by simp [h])]
  · intro h hname
    rw [if_pos h, if_pos hname]
    constructor
    · intro hs
      rw [hs]
    · intro num hs
      rw [hs]

/-- C10, witness: the repair applied to the out-of-range draft product
`("A 5 kg 6 mt", quantity "0")`. -/
theorem C10_witness :
    fixupStep (mkProd "A 5 kg 6 mt" "0" "0" "0") =
      { mkProd "A 5 kg 6 mt" "0" "0" "0" with
          quantity := ((pyFloatParse "5".data).getD PyNum.zero).toStr
          product_name := ⟨qtyUnitRemove "A 5 kg 6 mt".data⟩ } :=
  ((C10_fixup_rule _).2 (by decide) (by decide)).2 "5".data (by decide)

/-! Helper lemmas for the product loop of `validate_and_clean_result`. -/

/-- The validated products are the per-index `cleanProduct` images of the
draft products (when there is at least one product). -/
theorem validate_products_get (d : POResult) (i : Nat) (p : Product)
    (hp : d.products.get? i = some p) :
    (validate_and_clean_result d).products.get? i = some (cleanProduct i p) := by
  have hne : d.products ≠ [] := by
    intro h; rw [h] at hp; simp at hp
  show ((if d.products = [] then [placeholderProduct] else d.products).enum.map
      fun ip => cleanProduct ip.1 ip.2).get? i = _
  rw [if_neg hne, List.get?_map, List.get?_enum, hp]
  rfl

/-- `nameStep` only rewrites the product name. -/
theorem nameStep_quantity (i : Nat) (p : Product) : (nameStep i p).quantity = p.quantity := by
  unfold nameStep; split <;> rfl

/-- `nameStep` only rewrites the product name. -/
theorem nameStep_unit_price (i : Nat) (p : Product) : (nameStep i p).unit_price = p.unit_price := by
  unfold nameStep; split <;> rfl

/-- `nameStep` only rewrites the product name. -/
theorem nameStep_subtotal (i : Nat) (p : Product) : (nameStep i p).subtotal = p.subtotal := by
  unfold nameStep; split <;> rfl

/-- A float that is `<= 0` is not `> 0`. -/
theorem PyNum.pos_eq_false {x : PyNum} (h : x.le0 = true) : x.pos = false := by
  simp only [PyNum.le0, decide_eq_true_eq] at h
  simp only [PyNum.pos, decide_eq_false_iff_not]
  omega

/-- C5, counterexample: for the product `("Item 5 kg", quantity absent,
unit_price 2, subtotal 20)` — exactly one of the three absent, the other two
positive — the claim demands `quantity = subtotal / unit_price = 10`; the
name-based repair runs first, takes `5` from the name and strips it, after
which no ratio derivation happens: the validated quantity is `5.0`, not 10. -/
theorem C5_counterexample :
    (validate_and_clean_result
      ⟨"", "", "", [mkProd "Item 5 kg" "" "2" "20"], "", "", none⟩).products =
      [⟨"Item", "5.0", "2", "20", none⟩] ∧
    (extractFloat "5.0").toQ = 5 ∧ ((20 : ℚ) / 2) = 10 ∧ (5 : ℚ) ≠ 10 := by
  refine ⟨by decide, ?_, by norm_num, by norm_num⟩
  have h : extractFloat "5.0" = ⟨50, 10⟩ := by decide
  rw [h]
  norm_num [PyNum.toQ]

/-- `nameStep` only rewrites the product name. -/
theorem nameStep_amount (i : Nat) (p : Product) : (nameStep i p).amount = p.amount := by
  unfold nameStep; split <;> rfl

/-- C5, amended: the single-missing-field derivation (and the
leave-alone rule when two or more of quantity/unit price/subtotal are
zero/absent) holds for every product line on which the name-based quantity
repair is inert; the repair runs first and can otherwise overwrite the
quantity from the product name before the ratio derivation is considered. -/
theorem C5_derivation (d : POResult) (i : Nat) (p : Product)
    (hp : d.products.get? i = some p)
    (hfix : fixupStep (nameStep i p) = nameStep i p) :
    ((extractFloat p.subtotal).le0 = true → (extractFloat p.quantity).pos = true →
        (extractFloat p.unit_price).pos = true →
      (validate_and_clean_result d).products.get? i = some
        ⟨(nameStep i p).product_name, p.quantity, p.unit_price,
          (PyNum.round2 ((extractFloat p.quantity).mul (extractFloat p.unit_price))).toStr,
          p.amount⟩) ∧
    ((extractFloat p.unit_price).le0 = true → (extractFloat p.quantity).pos = true →
        (extractFloat p.subtotal).pos = true →
      (validate_and_clean_result d).products.get? i = some
        ⟨(nameStep i p).product_name, p.quantity,
          (PyNum.round2 ((extractFloat p.subtotal).div (extractFloat p.quantity))).toStr,
          p.subtotal, p.amount⟩) ∧
    ((extractFloat p.quantity).le0 = true → (extractFloat p.unit_price).pos = true →
        (extractFloat p.subtotal).pos = true →
      (validate_and_clean_result d).products.get? i = some
        ⟨(nameStep i p).product_name,
          (PyNum.round2 ((extractFloat p.subtotal).div (extractFloat p.unit_price))).toStr,
          p.unit_price, p.subtotal, p.amount⟩) ∧
    ((((extractFloat p.quantity).le0 = true ∧ (extractFloat p.unit_price).le0 = true) ∨
      ((extractFloat p.quantity).le0 = true ∧ (extractFloat p.subtotal).le0 = true) ∨
      ((extractFloat p.unit_price).le0 = true ∧ (extractFloat p.subtotal).le0 = true)) →
      (validate_and_clean_result d).products.get? i = some (nameStep i p)) := by
  have hv := validate_products_get d i p hp
  rw [hv]
  unfold cleanProduct
  rw [hfix]
  unfold deriveStep
  rw [nameStep_quantity, nameStep_unit_price, nameStep_subtotal]
  refine ⟨?_, ?_, ?_, ?_⟩
  · intro h1 h2 h3
    rw [if_pos (by rw [h1, h2, h3]; rfl)]
    rw [nameStep_amount]
  · intro h1 h2 h3
    rw [if_neg (by simp [PyNum.pos_eq_false h1, h1]),
        if_pos (by rw [h1, h2, h3]; rfl)]
    rw [nameStep_amount]
  · intro h1 h2 h3
    rw [if_neg (by simp [PyNum.pos_eq_false h1, h1]),
        if_neg (by simp [PyNum.pos_eq_false h1, h1]),
        if_pos (by rw [h1, h2, h3]; rfl)]
    rw [nameStep_amount]
  · intro h
    rcases h with ⟨h1, h2⟩ | ⟨h1, h2⟩ | ⟨h1, h2⟩ <;>
      rw [if_neg (by simp [PyNum.pos_eq_false h1, PyNum.pos_eq_false h2, h1, h2]),
          if_neg (by simp [PyNum.pos_eq_false h1, PyNum.pos_eq_false h2, h1, h2]),
          if_neg (by simp [PyNum.pos_eq_false h1, PyNum.pos_eq_false h2, h1, h2])]

/-- C5, witness: the claim's two concrete derivation instances
(`10 × 2.5` gives subtotal `"25.0"` and `25 / 10` gives unit price `"2.5"`). -/
theorem C5_witness :
    (validate_and_clean_result
      ⟨"", "", "", [mkProd "W" "10" "2.5" ""], "", "", none⟩).products.get? 0 =
      some (mkProd "W" "10" "2.5" "25.0") ∧
    (validate_and_clean_result
      ⟨"", "", "", [mkProd "W" "10" "" "25"], "", "", none⟩).products.get? 0 =
      some (mkProd "W" "10" "2.5" "25") :=
  ⟨((C5_derivation ⟨"", "", "", [mkProd "W" "10" "2.5" ""], "", "", none⟩ 0
      (mkProd "W" "10" "2.5" "") rfl (by decide)).1
        (by decide) (by decide) (by decide)).trans (by decide),
   ((C5_derivation ⟨"", "", "", [mkProd "W" "10" "" "25"], "", "", none⟩ 0
      (mkProd "W" "10" "" "25") rfl (by decide)).2.1
        (by decide) (by decide) (by decide)).trans (by decide)⟩

/-! Helper lemmas for C8: the double-ended trims are idempotent, and the
whitespace-collapsed shape is preserved by them. -/

/-- The end-trim half of `trimClass`. -/
def dropEnd (p : Char → Bool) (l : List Char) : List Char := (l.reverse.dropWhile p).reverse

/-- `trimClass` is the end trim after the front trim. -/
theorem trimClass_eq_dropEnd (p : Char → Bool) (l : List Char) :
    trimClass p l = dropEnd p (l.dropWhile p) := rfl

/-- `stripPy` is `trimClass isPySpace`. -/
theorem stripPy_eq_trimClass (l : List Char) : stripPy l = trimClass isPySpace l := rfl

/-- The end trim is idempotent. -/
theorem dropEnd_dropEnd (p : Char → Bool) (l : List Char) :
    dropEnd p (dropEnd p l) = dropEnd p l := by
  unfold dropEnd
  rw [List.reverse_reverse, List.dropWhile_idempotent]

/-- The head of a `dropWhile` result fails the predicate. -/
theorem dropWhile_head_false (p : Char → Bool) :
    ∀ (l : List Char) (c : Char) (cs : List Char), l.dropWhile p = c :: cs → p c = false := by
  intro l
  induction l with
  | nil => intro c cs h; simp at h
  | cons a as ih =>
    intro c cs h
    by_cases hp : p a
    · rw [List.dropWhile_cons_of_pos hp] at h
      exact ih c cs h
    · rw [List.dropWhile_cons_of_neg hp] at h
      cases h
      simpa using hp

/-- The end trim of a non-empty list is empty or keeps the head. -/
theorem dropEnd_head (p : Char → Bool) (c : Char) (cs : List Char) :
    dropEnd p (c :: cs) = [] ∨ ∃ ds, dropEnd p (c :: cs) = c :: ds := by
  unfold dropEnd
  rw [show (c :: cs).reverse = cs.reverse ++ [c] by simp]
  rw [List.dropWhile_append]
  split_ifs with he
  · by_cases hp : p c
    · left; simp [hp]
    · right; exact ⟨[], by simp [hp]⟩
  · right
    exact ⟨(cs.reverse.dropWhile p).reverse, by simp⟩

/-- The front trim is inert on an end-trimmed front-trimmed list. -/
theorem dropWhile_dropEnd (p : Char → Bool) (l : List Char) :
    (dropEnd p (l.dropWhile p)).dropWhile p = dropEnd p (l.dropWhile p) := by
  cases h : l.dropWhile p with
  | nil => rfl
  | cons c cs =>
    have hc : p c = false := dropWhile_head_false p l c cs h
    rcases dropEnd_head p c cs with he | ⟨ds, hds⟩
    · rw [he]; rfl
    · rw [hds]
      exact List.dropWhile_cons_of_neg (by simp [hc])

/-- `trimClass` is idempotent. -/
theorem trimClass_trimClass (p : Char → Bool) (l : List Char) :
    trimClass p (trimClass p l) = trimClass p l := by
  rw [trimClass_eq_dropEnd, trimClass_eq_dropEnd, dropWhile_dropEnd, dropEnd_dropEnd]

/-- The head of a trimmed list fails the predicate. -/
theorem trimClass_head_false (p : Char → Bool) (l : List Char) (c : Char) (cs : List Char)
    (h : trimClass p l = c :: cs) : p c = false := by
  rw [trimClass_eq_dropEnd] at h
  cases hx : l.dropWhile p with
  | nil => rw [hx] at h; simp [dropEnd] at h
  | cons a as =>
    have ha : p a = false := dropWhile_head_false p l a as hx
    rw [hx] at h
    rcases dropEnd_head p a as with he | ⟨ds, hds⟩
    · rw [he] at h; cases h
    · rw [hds] at h
      cases h
      exact ha

/-- The last element of a trimmed list fails the predicate. -/
theorem trimClass_getLast_false (p : Char → Bool) (l : List Char) (c : Char)
    (h : (trimClass p l).getLast? = some c) : p c = false := by
  have : (trimClass p l).getLast? = ((l.dropWhile p).reverse.dropWhile p).head? := by
    rw [trimClass_eq_dropEnd]
    unfold dropEnd
    rw [List.getLast?_reverse]
  rw [this] at h
  cases hx : (l.dropWhile p).reverse.dropWhile p with
  | nil => rw [hx] at h; simp at h
  | cons a as =>
    have ha : p a = false := dropWhile_head_false p _ a as hx
    rw [hx] at h
    simp at h
    rw [← h]
    exact ha

/-- A list whose head and last element fail the predicate is trim-inert. -/
theorem trimClass_noop (p : Char → Bool) (l : List Char)
    (hh : ∀ c, l.head? = some c → p c = false)
    (hl : ∀ c, l.getLast? = some c → p c = false) : trimClass p l = l := by
  cases l with
  | nil => rfl
  | cons c cs =>
    have hc : p c = false := hh c rfl
    rw [trimClass_eq_dropEnd, List.dropWhile_cons_of_neg (by simp [hc])]
    unfold dropEnd
    cases hr : (c :: cs).reverse with
    | nil => simp at hr
    | cons a as =>
      have ha : (c :: cs).getLast? = some a := by
        rw [← List.head?_reverse, hr]; rfl
      rw [List.dropWhile_cons_of_neg (by simp [hl a ha]), ← hr, List.reverse_reverse]

/-- The shape `re.sub(r'\s+', ' ', ·)` produces: every whitespace character
is a plain space and no two whitespace characters are adjacent. -/
def wsNorm (l : List Char) : Prop :=
  (∀ c ∈ l, isPySpace c = true → c = ' ') ∧
  l.Chain' (fun a b => ¬(isPySpace a = true ∧ isPySpace b = true))

/-- After the in-run flag, the collapse result starts with a non-space. -/
theorem collapseWsAux_head (l : List Char) :
    ∀ c, (collapseWsAux true l).head? = some c → isPySpace c = false := by
  induction l with
  | nil => intro c h; simp [collapseWsAux] at h
  | cons a as ih =>
    intro c h
    unfold collapseWsAux at h
    by_cases ha : isPySpace a
    · rw [if_pos ha, if_pos rfl] at h
      exact ih c h
    · rw [if_neg ha] at h
      cases h
      simpa using ha

/-- Every whitespace character of a collapse result is a plain space. -/
theorem collapseWsAux_mem (b : Bool) (l : List Char) :
    ∀ c ∈ collapseWsAux b l, isPySpace c = true → c = ' ' := by
  induction l generalizing b with
  | nil => intro c h; simp [collapseWsAux] at h
  | cons a as ih =>
    intro c h hws
    unfold collapseWsAux at h
    by_cases ha : isPySpace a
    · rw [if_pos ha] at h
      cases b with
      | true => exact ih true c (by simpa using h) hws
      | false =>
        rw [if_neg (by simp)] at h
        rcases List.mem_cons.mp h with hc | hc
        · exact hc
        · exact ih true c hc hws
    · rw [if_neg ha] at h
      rcases List.mem_cons.mp h with hc | hc
      · subst hc; simp [hws] at ha
      · exact ih false c hc hws

/-- A collapse result has no two adjacent whitespace characters. -/
theorem collapseWsAux_chain (b : Bool) (l : List Char) :
    (collapseWsAux b l).Chain' (fun a c => ¬(isPySpace a = true ∧ isPySpace c = true)) := by
  induction l generalizing b with
  | nil => simp [collapseWsAux]
  | cons a as ih =>
    unfold collapseWsAux
    by_cases ha : isPySpace a
    · rw [if_pos ha]
      cases b with
      | true => exact ih true
      | false =>
        rw [if_neg (by simp)]
        rw [List.chain'_cons']
        refine ⟨?_, ih true⟩
        intro c hc
        have := collapseWsAux_head as c hc
        simp [this]
    · rw [if_neg ha]
      rw [List.chain'_cons']
      refine ⟨?_, ih false⟩
      intro c _
      simp [ha]

/-- The collapse result is whitespace-normal. -/
theorem wsNorm_collapseWs (l : List Char) : wsNorm (collapseWs l) :=
  ⟨collapseWsAux_mem false l, collapseWsAux_chain false l⟩

/-- A whitespace-normal list is a fixed point of the collapse.  The second
conjunct strengthens the induction for the in-run flag. -/
theorem collapse_of_wsNorm :
    ∀ l : List Char, wsNorm l →
      collapseWsAux false l = l ∧
      ((∀ c, l.head? = some c → isPySpace c = false) → collapseWsAux true l = l) := by
  intro l
  induction l with
  | nil => exact fun _ => ⟨rfl, fun _ => rfl⟩
  | cons a as ih =>
    intro ⟨hmem, hch⟩
    rw [List.chain'_cons'] at hch
    have ihas := ih ⟨fun c hc => hmem c (List.mem_cons_of_mem a hc), hch.2⟩
    by_cases ha : isPySpace a
    · have ha' : a = ' ' := hmem a (List.mem_cons_self a as) ha
      have hhead : ∀ c, as.head? = some c → isPySpace c = false := by
        intro c hc
        have := hch.1 c hc
        simp [ha] at this
        simpa using this
      constructor
      · show collapseWsAux false (a :: as) = a :: as
        unfold collapseWsAux
        rw [if_pos ha, if_neg (by simp), ihas.2 hhead, ha']
      · intro hh
        have := hh a rfl
        rw [this] at ha
        cases ha
    · constructor
      · show collapseWsAux false (a :: as) = a :: as
        unfold collapseWsAux
        rw [if_neg ha, ihas.1]
      · intro _
        show collapseWsAux true (a :: as) = a :: as
        unfold collapseWsAux
        rw [if_neg ha, ihas.1]

/-- Whitespace-normality passes to contiguous sublists. -/
theorem wsNorm_contig {l l₁ : List Char} (h : wsNorm l) (hinf : l₁ <:+: l) : wsNorm l₁ :=
  ⟨fun c hc => h.1 c (hinf.sublist.subset hc), List.Chain'.infix h.2 hinf⟩

/-- A trimmed list is a contiguous sublist. -/
theorem trimClass_contig (p : Char → Bool) (l : List Char) : trimClass p l <:+: l := by
  refine ⟨l.takeWhile p, ((l.dropWhile p).reverse.takeWhile p).reverse, ?_⟩
  rw [trimClass_eq_dropEnd]
  unfold dropEnd
  have h1 : dropEnd p (l.dropWhile p) ++ ((l.dropWhile p).reverse.takeWhile p).reverse =
      l.dropWhile p := by
    unfold dropEnd
    rw [← List.reverse_append, List.takeWhile_append_dropWhile, List.reverse_reverse]
  calc l.takeWhile p ++ ((l.dropWhile p).reverse.dropWhile p).reverse ++
          ((l.dropWhile p).reverse.takeWhile p).reverse
      = l.takeWhile p ++ (dropEnd p (l.dropWhile p) ++
          ((l.dropWhile p).reverse.takeWhile p).reverse) := by rw [List.append_assoc]; rfl
    _ = l.takeWhile p ++ l.dropWhile p := by rw [h1]
    _ = l := List.takeWhile_append_dropWhile p l

/-- The collapse leaves a cleaned (collapsed-then-trimmed) value unchanged. -/
theorem collapseWs_of_trim_collapse (p : Char → Bool) (l : List Char) :
    collapseWs (trimClass p (collapseWs l)) = trimClass p (collapseWs l) :=
  (collapse_of_wsNorm _ (wsNorm_contig (wsNorm_collapseWs l) (trimClass_contig p (collapseWs l)))).1

/-- `isPySpace` characters are `isPoPunct` characters. -/
theorem isPoPunct_of_isPySpace {c : Char} (h : isPySpace c = true) : isPoPunct c = true := by
  simp [isPoPunct, h]

/-- `cleanStrField` is idempotent. -/
theorem cleanStrField_idem (s : String) :
    cleanStrField (cleanStrField s) = cleanStrField s := by
  by_cases hs : s = ""
  · rw [hs]
    rfl
  · rw [show cleanStrField s = ⟨stripPy (collapseWs s.data)⟩ from by
      unfold cleanStrField; rw [if_pos hs]]
    by_cases hr : (⟨stripPy (collapseWs s.data)⟩ : String) = ""
    · rw [hr]
      rfl
    · show cleanStrField _ = _
      unfold cleanStrField
      rw [if_pos hr]
      show (⟨stripPy (collapseWs (stripPy (collapseWs s.data)))⟩ : String) = _
      rw [stripPy_eq_trimClass, stripPy_eq_trimClass, collapseWs_of_trim_collapse,
          trimClass_trimClass]

/-- `cleanPoNumber` is idempotent. -/
theorem cleanPoNumber_idem (s : String) :
    cleanPoNumber (cleanPoNumber s) = cleanPoNumber s := by
  by_cases hs : s = ""
  · rw [hs]
    rfl
  · rw [show cleanPoNumber s = ⟨trimClass isPoPunct (stripPy (collapseWs s.data))⟩ from by
      unfold cleanPoNumber; rw [if_pos hs]]
    by_cases hr : (⟨trimClass isPoPunct (stripPy (collapseWs s.data))⟩ : String) = ""
    · rw [hr]
      rfl
    · have h1 : wsNorm (trimClass isPySpace (collapseWs s.data)) :=
        wsNorm_contig (wsNorm_collapseWs s.data) (trimClass_contig _ _)
      have h2 : wsNorm (trimClass isPoPunct (trimClass isPySpace (collapseWs s.data))) :=
        wsNorm_contig h1 (trimClass_contig _ _)
      have hcoll : collapseWs (trimClass isPoPunct
          (trimClass isPySpace (collapseWs s.data))) =
          trimClass isPoPunct (trimClass isPySpace (collapseWs s.data)) :=
        (collapse_of_wsNorm _ h2).1
      have hstrip : trimClass isPySpace
          (trimClass isPoPunct (trimClass isPySpace (collapseWs s.data))) =
          trimClass isPoPunct (trimClass isPySpace (collapseWs s.data)) := by
        apply trimClass_noop
        · intro c hc
          cases hx : trimClass isPoPunct (trimClass isPySpace (collapseWs s.data)) with
          | nil => rw [hx] at hc; cases hc
          | cons a as =>
            rw [hx] at hc
            simp at hc
            subst hc
            have hpp := trimClass_head_false isPoPunct _ a as hx
            by_contra hws
            rw [isPoPunct_of_isPySpace (by simpa using hws)] at hpp
            cases hpp
        · intro c hc
          have hpp := trimClass_getLast_false isPoPunct _ c hc
          by_contra hws
          rw [isPoPunct_of_isPySpace (by simpa using hws)] at hpp
          cases hpp
      show cleanPoNumber _ = _
      unfold cleanPoNumber
      rw [if_pos hr]
      show (⟨trimClass isPoPunct (stripPy (collapseWs
        (trimClass isPoPunct (stripPy (collapseWs s.data)))))⟩ : String) = _
      simp only [stripPy_eq_trimClass]
      rw [hcoll, hstrip, trimClass_trimClass]

/-- A float that is `> 0` is not `<= 0`. -/
theorem PyNum.le0_eq_false {x : PyNum} (h : x.pos = true) : x.le0 = false := by
  simp only [PyNum.pos, decide_eq_true_eq] at h
  simp only [PyNum.le0, decide_eq_false_iff_not]
  omega

/-- Every float is `<= 0` or `> 0`. -/
theorem PyNum.le0_or_pos (x : PyNum) : x.le0 = true ∨ x.pos = true := by
  simp only [PyNum.le0, PyNum.pos, decide_eq_true_eq]
  omega

/-- The quantity repair does nothing when the name has no quantity token. -/
theorem fixupStep_id (q : Product)
    (hs : qtyUnitSearch q.product_name.data = none) : fixupStep q = q := by
  unfold fixupStep
  dsimp only
  rw [hs]
  split_ifs <;> rfl

/-- `deriveStep` keeps the product name. -/
theorem deriveStep_product_name (q : Product) :
    (deriveStep q).product_name = q.product_name := by
  unfold deriveStep; dsimp only; split_ifs <;> rfl

/-- `deriveStep` keeps the amount alias. -/
theorem deriveStep_amount (q : Product) : (deriveStep q).amount = q.amount := by
  unfold deriveStep; dsimp only; split_ifs <;> rfl

/-- `deriveStep` is idempotent: a field it writes is recomputed identically
from the two unchanged fields, and the untouched fields keep their signs. -/
theorem deriveStep_idem (q : Product) : deriveStep (deriveStep q) = deriveStep q := by
  by_cases h1 : ((extractFloat q.subtotal).le0 && (extractFloat q.quantity).pos &&
      (extractFloat q.unit_price).pos) = true
  · obtain ⟨⟨hs, hq⟩, hp⟩ : ((extractFloat q.subtotal).le0 = true ∧
        (extractFloat q.quantity).pos = true) ∧ (extractFloat q.unit_price).pos = true := by
      simpa using h1
    have e1 : deriveStep q = { q with subtotal :=
        (PyNum.round2 ((extractFloat q.quantity).mul (extractFloat q.unit_price))).toStr } := by
      unfold deriveStep; rw [if_pos h1]
    rw [e1]
    unfold deriveStep
    dsimp only
    rcases PyNum.le0_or_pos (extractFloat
        (PyNum.round2 ((extractFloat q.quantity).mul (extractFloat q.unit_price))).toStr)
      with hle | hpos
    · rw [if_pos (by rw [hle, hq, hp]; rfl)]
    · rw [if_neg (by rw [PyNum.le0_eq_false hpos]; simp [PyNum.le0_eq_false hp]),
          if_neg (by rw [PyNum.le0_eq_false hp]; simp),
          if_neg (by rw [PyNum.le0_eq_false hq]; simp)]
  · by_cases h2 : ((extractFloat q.unit_price).le0 && (extractFloat q.quantity).pos &&
        (extractFloat q.subtotal).pos) = true
    · obtain ⟨⟨hp, hq⟩, hs⟩ : ((extractFloat q.unit_price).le0 = true ∧
          (extractFloat q.quantity).pos = true) ∧ (extractFloat q.subtotal).pos = true := by
        simpa using h2
      have e2 : deriveStep q = { q with unit_price :=
          (PyNum.round2 ((extractFloat q.subtotal).div (extractFloat q.quantity))).toStr } := by
        unfold deriveStep; rw [if_neg h1, if_pos h2]
      rw [e2]
      unfold deriveStep
      dsimp only
      rcases PyNum.le0_or_pos (extractFloat
          (PyNum.round2 ((extractFloat q.subtotal).div (extractFloat q.quantity))).toStr)
        with hle | hpos
      · rw [if_neg (by rw [PyNum.le0_eq_false hs]; simp),
            if_pos (by rw [hle, hq, hs]; rfl)]
      · rw [if_neg (by rw [PyNum.le0_eq_false hs]; simp),
            if_neg (by rw [PyNum.le0_eq_false hpos]; simp),
            if_neg (by rw [PyNum.le0_eq_false hq]; simp)]
    · by_cases h3 : ((extractFloat q.quantity).le0 && (extractFloat q.unit_price).pos &&
          (extractFloat q.subtotal).pos) = true
      · obtain ⟨⟨hq, hp⟩, hs⟩ : ((extractFloat q.quantity).le0 = true ∧
            (extractFloat q.unit_price).pos = true) ∧ (extractFloat q.subtotal).pos = true := by
          simpa using h3
        have e3 : deriveStep q = { q with quantity :=
            (PyNum.round2 ((extractFloat q.subtotal).div (extractFloat q.unit_price))).toStr } := by
          unfold deriveStep; rw [if_neg h1, if_neg h2, if_pos h3]
        rw [e3]
        unfold deriveStep
        dsimp only
        rcases PyNum.le0_or_pos (extractFloat
            (PyNum.round2 ((extractFloat q.subtotal).div (extractFloat q.unit_price))).toStr)
          with hle | hpos
        · rw [if_neg (by rw [PyNum.le0_eq_false hs]; simp),
              if_neg (by rw [PyNum.le0_eq_false hp]; simp),
              if_pos (by rw [hle, hp, hs]; rfl)]
        · rw [if_neg (by rw [PyNum.le0_eq_false hs]; simp),
              if_neg (by rw [PyNum.le0_eq_false hp]; simp),
              if_neg (by rw [PyNum.le0_eq_false hpos]; simp)]
      · have e4 : deriveStep q = q := by
          unfold deriveStep; rw [if_neg h1, if_neg h2, if_neg h3]
        rw [e4, e4]

/-- All characters of a decimal representation are digits. -/
theorem natDigitsAux_digits :
    ∀ (fuel n : Nat), ∀ c ∈ natDigitsAux fuel n, isPyDigit c = true := by
  intro fuel
  induction fuel with
  | zero => intro n c h; simp [natDigitsAux] at h
  | succ f ih =>
    intro n c h
    unfold natDigitsAux at h
    by_cases hn : n < 10
    · rw [if_pos hn] at h
      simp at h
      subst h
      interval_cases n <;> decide
    · rw [if_neg hn] at h
      rcases List.mem_append.mp h with h1 | h1
      · exact ih _ c h1
      · simp at h1
        subst h1
        have h10 : n % 10 < 10 := Nat.mod_lt _ (by decide)
        set m := n % 10 with hm
        interval_cases m <;> decide

/-- A decimal representation is never empty. -/
theorem natDigits_ne_nil (n : Nat) : natDigits n ≠ [] := by
  show natDigitsAux (n + 1) n ≠ []
  rw [natDigitsAux]
  split_ifs <;> simp

/-- Digits are not whitespace. -/
theorem isPySpace_of_isPyDigit {c : Char} (h : isPyDigit c = true) : isPySpace c = false := by
  by_contra hc
  have hs : isPySpace c = true := by simpa using hc
  have hc6 : ((((c = ' ' ∨ c = '\t') ∨ c = '\n') ∨ c = '\r') ∨ c = '\x0b') ∨ c = '\x0c' := by
    simpa [isPySpace] using hs
  rcases hc6 with ((((rfl|rfl)|rfl)|rfl)|rfl)|rfl <;> exact absurd h (by decide)

/-- `nameStep` is inert on a product with a non-empty, already-stripped name. -/
theorem nameStep_of_cleanName (i : Nat) (q : Product)
    (hn : q.product_name ≠ "") (hstr : stripPy q.product_name.data = q.product_name.data) :
    nameStep i q = q := by
  unfold nameStep
  rw [if_pos hn, hstr]

/-- The name produced by `nameStep` is a fixed point of `strip`. -/
theorem nameStep_name_stripped (i : Nat) (p : Product) :
    stripPy (nameStep i p).product_name.data = (nameStep i p).product_name.data := by
  unfold nameStep
  by_cases hn : p.product_name ≠ ""
  · rw [if_pos hn]
    show stripPy (stripPy p.product_name.data) = stripPy p.product_name.data
    rw [stripPy_eq_trimClass, stripPy_eq_trimClass, trimClass_trimClass]
  · rw [if_neg hn]
    show stripPy ("Product ".data ++ natDigits (i + 1)) = "Product ".data ++ natDigits (i + 1)
    rw [stripPy_eq_trimClass]
    apply trimClass_noop
    · intro c hc
      have : c = 'P' := by
        simpa using hc.symm
      subst this
      decide
    · intro c hc
      rw [List.getLast?_append_of_ne_nil _ (natDigits_ne_nil (i + 1))] at hc
      have hd : isPyDigit c = true :=
        natDigitsAux_digits _ _ c (List.mem_of_mem_getLast? hc)
      exact isPySpace_of_isPyDigit hd

/-- The whole loop body is idempotent on products whose processed name is
non-empty and free of quantity tokens. -/
theorem cleanProduct_stable (i : Nat) (p : Product)
    (hn : (nameStep i p).product_name ≠ "")
    (hs : qtyUnitSearch (nameStep i p).product_name.data = none) :
    cleanProduct i (cleanProduct i p) = cleanProduct i p := by
  have h1 : cleanProduct i p = deriveStep (nameStep i p) := by
    unfold cleanProduct
    rw [fixupStep_id _ hs]
  rw [h1]
  show cleanProduct i (deriveStep (nameStep i p)) = _
  have hname2 : (deriveStep (nameStep i p)).product_name = (nameStep i p).product_name :=
    deriveStep_product_name _
  have hns : nameStep i (deriveStep (nameStep i p)) = deriveStep (nameStep i p) := by
    apply nameStep_of_cleanName
    · rw [hname2]; exact hn
    · rw [hname2]; exact nameStep_name_stripped i p
  unfold cleanProduct
  rw [hns, fixupStep_id _ (by rw [hname2]; exact hs), deriveStep_idem]

/-- The validated product list, pointwise. -/
theorem validate_products_get_general (d : POResult) (n : Nat) :
    (validate_and_clean_result d).products.get? n =
      ((if d.products = [] then [placeholderProduct] else d.products).get? n).map
        fun a => cleanProduct n a := by
  show ((if d.products = [] then [placeholderProduct] else d.products).enum.map
      fun ip => cleanProduct ip.1 ip.2).get? n = _
  rw [List.get?_map, List.get?_enum]
  cases (if d.products = [] then [placeholderProduct] else d.products).get? n <;> rfl

/-- The validated product list is never empty. -/
theorem validate_products_ne_nil (d : POResult) :
    (validate_and_clean_result d).products ≠ [] := by
  intro hcon
  have : (validate_and_clean_result d).products.get? 0 = none := by
    rw [hcon]; rfl
  rw [validate_products_get_general] at this
  split_ifs at this with hd
  · simp at this
  · cases hp : d.products with
    | nil => exact hd hp
    | cons a as => rw [hp] at this; simp at this

/-- C8, counterexample: a whitespace-only product name is stripped to the
empty string by the first validation and replaced by `"Product 1"` by the
second, so validation is not idempotent. -/
theorem C8_counterexample :
    validate_and_clean_result (validate_and_clean_result
      ⟨"", "", "", [mkProd " " "1" "1" "1"], "", "", none⟩) ≠
    validate_and_clean_result ⟨"", "", "", [mkProd " " "1" "1" "1"], "", "", none⟩ := by
  decide

/-- C8, amended: validation is idempotent on every draft whose product names
survive the loop body unchanged in shape — i.e. for each draft product the
name produced by the name-cleaning step is non-empty and contains no
number-plus-unit token.  (Otherwise the second pass can replace a
stripped-to-empty name by `"Product N"`, or the name-based quantity repair
can rewrite the name again, as in the counterexample.) -/
theorem C8_validate_idempotent (d : POResult)
    (h : ∀ i p, d.products.get? i = some p →
      (nameStep i p).product_name ≠ "" ∧
      qtyUnitSearch (nameStep i p).product_name.data = none) :
    validate_and_clean_result (validate_and_clean_result d) = validate_and_clean_result d := by
  have hprod : ∀ n q, (validate_and_clean_result d).products.get? n = some q →
      cleanProduct n q = q := by
    intro n q hq
    rw [validate_products_get_general] at hq
    split_ifs at hq with hd
    · cases n with
      | zero =>
        simp at hq
        rw [← hq]
        exact cleanProduct_stable 0 placeholderProduct (by decide) (by decide)
      | succ m => simp at hq
    · cases hp : d.products.get? n with
      | none => rw [hp] at hq; cases hq
      | some p =>
        rw [hp] at hq
        simp at hq
        rw [← hq]
        exact cleanProduct_stable n p (h n p hp).1 (h n p hp).2
  have hprods : (validate_and_clean_result (validate_and_clean_result d)).products =
      (validate_and_clean_result d).products := by
    apply List.ext_get?
    intro n
    rw [validate_products_get_general, if_neg (validate_products_ne_nil d)]
    cases hq : (validate_and_clean_result d).products.get? n with
    | none => rfl
    | some q =>
      show some (cleanProduct n q) = some q
      rw [hprod n q hq]
  have hcur : (validate_and_clean_result (validate_and_clean_result d)).currency =
      (validate_and_clean_result d).currency := by
    show (if cleanStrField (validate_and_clean_result d).currency = "" then "USD"
          else cleanStrField (validate_and_clean_result d).currency) = _
    by_cases hc : cleanStrField d.currency = ""
    · have hv : (validate_and_clean_result d).currency = "USD" := by
        show (if cleanStrField d.currency = "" then "USD" else cleanStrField d.currency) = "USD"
        rw [if_pos hc]
      rw [hv]
      decide
    · have hv : (validate_and_clean_result d).currency = cleanStrField d.currency := by
        show (if cleanStrField d.currency = "" then "USD" else cleanStrField d.currency) = _
        rw [if_neg hc]
      rw [hv, cleanStrField_idem, if_neg hc]
  show ({ customer_name := cleanStrField (validate_and_clean_result d).customer_name
          po_number := cleanPoNumber (validate_and_clean_result d).po_number
          currency := (validate_and_clean_result (validate_and_clean_result d)).currency
          products := (validate_and_clean_result (validate_and_clean_result d)).products
          payment_terms := cleanStrField (validate_and_clean_result d).payment_terms
          destination := cleanStrField (validate_and_clean_result d).destination
          total_amount := (validate_and_clean_result d).total_amount } : POResult) = _
  rw [hprods, hcur]
  show ({ customer_name := cleanStrField (cleanStrField d.customer_name)
          po_number := cleanPoNumber (cleanPoNumber d.po_number)
          currency := (validate_and_clean_result d).currency
          products := (validate_and_clean_result d).products
          payment_terms := cleanStrField (cleanStrField d.payment_terms)
          destination := cleanStrField (cleanStrField d.destination)
          total_amount := d.total_amount } : POResult) = _
  rw [cleanStrField_idem, cleanPoNumber_idem, cleanStrField_idem, cleanStrField_idem]
  rfl

/-- C8, witness: idempotence on a well-formed one-product draft. -/
theorem C8_witness :
    validate_and_clean_result (validate_and_clean_result
      ⟨" Acme ", "PO1", "usd", [mkProd "Widget" "10" "2.5" ""], "NET 30", "Tokyo", none⟩) =
    validate_and_clean_result
      ⟨" Acme ", "PO1", "usd", [mkProd "Widget" "10" "2.5" ""], "NET 30", "Tokyo", none⟩ :=
  C8_validate_idempotent _ (by
    intro i p hip
    cases i with
    | zero =>
      cases hip
      exact ⟨by decide, by decide⟩
    | succ n => simp at hip)
